import Mathlib

/-!
Verification development for the baseball-video-analyzer core pipeline.

The Python source is shallowly embedded:
* frame indices are `ℤ` (Python ints, may go negative via margin arithmetic),
* scalar signals (coordinates, speeds, visibilities) are `ℚ`,
* angle computations (which use `arccos`/`sqrt`) live in `ℝ`,
* a per-frame joint list (`landmarks`) is a total function `ℕ → Pt`
  (real data always carries the fixed 33-entry MediaPipe list),
* the frame history dict is `ℤ → Option Landmarks` (`dict.get` semantics),
* Python `None` is `Option.none`; functions returning `None` return `Option`.
-/

/-- One joint observation: normalized x, y, depth placeholder z, and the
confidence/visibility score.  Mirrors the 4-tuples `lm[i]` of the source. -/
structure Pt where
  x : ℚ
  y : ℚ
  z : ℚ
  vis : ℚ
deriving DecidableEq, Repr

/-- A per-frame joint list, indexed by the MediaPipe joint numbering (the
source always holds the fixed 33-entry list, modelled as a total function). -/
abbrev Landmarks : Type := ℕ → Pt

/-- The frame history: `landmarks_history.get(f)` of the source. -/
abbrev History : Type := ℤ → Option Landmarks

/-- A detected motion interval `(start_frame, end_frame, peak_frame, peak_speed)`. -/
structure MotionInterval where
  startFrame : ℤ
  endFrame : ℤ
  peakFrame : ℤ
  peakSpeed : ℚ
deriving DecidableEq, Repr

/-- The event-detection scan shared by `detect_swings` (swing_detector.py,
lines 72-102) and `detect_pitch_motion` (pitching_detector.py, lines 83-111):
walk the speed series in order keeping an `in_swing` flag; a frame with
`above speed` (speed strictly over the threshold) opens or extends a run and
tracks the running peak; the first frame at or below the threshold closes the
run, emitting `(current_start, frame, peak, peak_speed)` when the duration
`frame - current_start` reaches `minf`.  `lastF` is `speeds[-1][0]` of the
full series, used to close a run still open when the series ends. -/
def scanIntervals (above : ℚ → Bool) (minf lastF : ℤ) :
    List (ℤ × ℚ) → Bool → ℤ → ℤ → ℚ → List MotionInterval
  | [], inSwing, st, pk, ps =>
      if inSwing && decide (lastF - st ≥ minf) then [⟨st, lastF, pk, ps⟩] else []
  | (f, s) :: rest, inSwing, st, pk, ps =>
      if above s then
        if inSwing then
          if s > ps then scanIntervals above minf lastF rest true st f s
          else scanIntervals above minf lastF rest true st pk ps
        else scanIntervals above minf lastF rest true f f s
      else
        if inSwing then
          (if decide (f - st ≥ minf) then [⟨st, f, pk, ps⟩] else []) ++
            scanIntervals above minf lastF rest false st pk ps
        else scanIntervals above minf lastF rest false st pk ps

/-- The scan applied to a whole series, with the Python initial state
`in_swing = False`, `current_start = current_peak = 0`, `peak_speed = 0`. -/
def detectIntervals (above : ℚ → Bool) (minf : ℤ) (speeds : List (ℤ × ℚ)) :
    List MotionInterval :=
  match speeds with
  | [] => []
  | x :: xs => scanIntervals above minf ((x :: xs).getLast (by simp)).1 (x :: xs) false 0 0 0

/-- Linear-interpolation percentile of `np.percentile(xs, 70)`:
sort ascending, take rank `0.7 * (n-1)`, interpolate between the two
neighbouring order statistics. -/
def percentile70 (xs : List ℚ) : ℚ :=
  let sorted := xs.mergeSort (fun a b => decide (a ≤ b))
  let n : ℤ := sorted.length
  let rank : ℚ := 7 * (n - 1) / 10
  let lo : ℕ := (⌊rank⌋).toNat
  let frac : ℚ := rank - (⌊rank⌋ : ℚ)
  match sorted.get? lo, sorted.get? (lo + 1) with
  | some a, some b => a + frac * (b - a)
  | some a, none => a
  | none, _ => 0

/-- `detect_swings` (swing_detector.py, lines 46-102): adaptive threshold is
the 70th percentile of the speeds above `0.001`; frames strictly above it form
swing candidates.  `fps` is accepted but unused, as in the source. -/
def detect_swings (wrist_speeds : List (ℤ × ℚ)) (fps : ℚ) (min_swing_frames : ℤ := 3) :
    List MotionInterval :=
  let _ := fps
  if wrist_speeds = [] then []
  else
    let nonzero := (wrist_speeds.map Prod.snd).filter (fun s => decide (s > 1/1000))
    if nonzero = [] then []
    else
      let adaptive := percentile70 nonzero
      detectIntervals (fun s => decide (s > adaptive)) min_swing_frames wrist_speeds

/-- `detect_pitch_motion` (pitching_detector.py, lines 63-111): the threshold
is `max(speed_threshold, mean + 1.2 * std)` over all samples.  Since
`1.2 * std ≥ 0`, the test `s > max(speed_threshold, mean + 1.2 * std)` is
equivalent to `s > speed_threshold ∧ s - mean > 0 ∧ (s - mean)² > 1.44 * var`,
which keeps the embedding inside `ℚ` (square-free form of the same predicate). -/
def detect_pitch_motion (arm_speeds : List (ℤ × ℚ)) (fps : ℚ)
    (speed_threshold : ℚ := 6/10) (min_frames : ℤ := 4) : List MotionInterval :=
  let _ := fps
  if arm_speeds = [] then []
  else
    let n : ℚ := (arm_speeds.length : ℚ)
    let mean := ((arm_speeds.map Prod.snd).sum) / n
    let var := (((arm_speeds.map Prod.snd).map (fun s => (s - mean) ^ 2)).sum) / n
    detectIntervals
      (fun s => decide (s > speed_threshold) && decide (s - mean > 0) &&
        decide ((s - mean) ^ 2 > (36/25) * var))
      min_frames arm_speeds

/-- The C1 interval invariant. -/
abbrev GoodInterval (minf : ℤ) (itv : MotionInterval) : Prop :=
  itv.startFrame ≤ itv.peakFrame ∧ itv.peakFrame ≤ itv.endFrame ∧
    minf ≤ itv.endFrame - itv.startFrame

/-- Frames of a speed series are strictly increasing (true of every series
produced by `calc_wrist_speed` / `calc_throwing_arm_speed`, which walk the
sorted frame keys). -/
abbrev FramesSorted (speeds : List (ℤ × ℚ)) : Prop :=
  speeds.Pairwise (fun a b => a.1 < b.1)

lemma goodInterval_mk {minf s e p : ℤ} {ps : ℚ} (h1 : s ≤ p) (h2 : p ≤ e)
    (h3 : minf ≤ e - s) : GoodInterval minf ⟨s, e, p, ps⟩ :=
  ⟨h1, h2, h3⟩

lemma scanIntervals_good (above : ℚ → Bool) (minf lastF : ℤ) :
    ∀ (l : List (ℤ × ℚ)) (inSwing : Bool) (st pk : ℤ) (ps : ℚ),
      l.Pairwise (fun a b => a.1 < b.1) →
      (∀ x ∈ l, x.1 ≤ lastF) →
      (inSwing = true → st ≤ pk ∧ pk ≤ lastF ∧ ∀ x ∈ l, pk < x.1) →
      ∀ itv ∈ scanIntervals above minf lastF l inSwing st pk ps, GoodInterval minf itv := by
  intro l
  induction l with
  | nil =>
      intro inSwing st pk ps _ _ hin itv hitv
      cases inSwing with
      | false => simp [scanIntervals] at hitv
      | true =>
          obtain ⟨h1, h2, _⟩ := hin rfl
          by_cases hd : minf ≤ lastF - st
          · have : itv = ⟨st, lastF, pk, ps⟩ := by
              simpa [scanIntervals, hd] using hitv
            subst this
            exact goodInterval_mk h1 h2 hd
          · simp [scanIntervals, hd] at hitv
  | cons hd tl ih =>
      intro inSwing st pk ps hsort hub hin itv hitv
      obtain ⟨f, s⟩ := hd
      have hsort' : tl.Pairwise (fun a b => a.1 < b.1) := hsort.of_cons
      have hhead : ∀ x ∈ tl, f < x.1 := fun x hx => (List.pairwise_cons.mp hsort).1 x hx
      have hub' : ∀ x ∈ tl, x.1 ≤ lastF := fun x hx => hub x (List.mem_cons_of_mem _ hx)
      have hflast : f ≤ lastF := hub (f, s) (List.mem_cons_self _ _)
      simp only [scanIntervals] at hitv
      split at hitv
      · -- above s = true
        split at hitv
        · -- inSwing = true
          obtain ⟨h1, h2, h3⟩ := hin (by assumption)
          have hpkf : pk < f := h3 (f, s) (List.mem_cons_self _ _)
          split at hitv
          · exact ih true st f s hsort' hub' (fun _ => ⟨by omega, hflast, hhead⟩) itv hitv
          · exact ih true st pk ps hsort' hub'
              (fun _ => ⟨h1, h2, fun x hx => h3 x (List.mem_cons_of_mem _ hx)⟩) itv hitv
        · exact ih true f f s hsort' hub' (fun _ => ⟨le_refl f, hflast, hhead⟩) itv hitv
      · -- above s = false
        split at hitv
        · -- inSwing = true
          obtain ⟨h1, h2, h3⟩ := hin (by assumption)
          have hpkf : pk < f := h3 (f, s) (List.mem_cons_self _ _)
          rcases List.mem_append.mp hitv with hmem | hmem
          · by_cases hdur : minf ≤ f - st
            · have : itv = ⟨st, f, pk, ps⟩ := by simpa [hdur] using hmem
              subst this
              exact goodInterval_mk h1 (by omega) (by omega)
            · simp [hdur] at hmem
          · exact ih false st pk ps hsort' hub' (by simp) itv hmem
        · exact ih false st pk ps hsort' hub' (by simp) itv hitv

lemma sorted_le_getLast {l : List (ℤ × ℚ)} (h : l.Pairwise (fun a b => a.1 < b.1))
    (hne : l ≠ []) : ∀ x ∈ l, x.1 ≤ (l.getLast hne).1 := by
  induction l with
  | nil => exact absurd rfl hne
  | cons hd tl ih =>
      intro x hx
      cases tl with
      | nil =>
          simp at hx
          simp [hx, List.getLast]
      | cons hd' tl' =>
          rw [List.getLast_cons (by simp)]
          rcases List.mem_cons.mp hx with hx | hx
          · subst hx
            have h1 : x.1 < hd'.1 := (List.pairwise_cons.mp h).1 hd' (List.mem_cons_self _ _)
            have h2 := ih h.of_cons (by simp) hd' (List.mem_cons_self _ _)
            omega
          · exact ih h.of_cons (by simp) x hx

lemma detectIntervals_good (above : ℚ → Bool) (minf : ℤ) (speeds : List (ℤ × ℚ))
    (hs : FramesSorted speeds) :
    ∀ itv ∈ detectIntervals above minf speeds, GoodInterval minf itv := by
  intro itv hitv
  match speeds, hs with
  | [], _ => simp [detectIntervals] at hitv
  | x :: xs, hs =>
      exact scanIntervals_good above minf _ (x :: xs) false 0 0 0 hs
        (sorted_le_getLast hs (by simp)) (by simp) itv hitv

/-- C1: every interval emitted by `detect_swings` or `detect_pitch_motion` on a
speed series with strictly increasing frames satisfies
`start ≤ peak ≤ end` and `end - start ≥` the minimum-frames parameter. -/
theorem detector_intervals_good (speeds : List (ℤ × ℚ)) (fps thr : ℚ) (minf : ℤ)
    (hs : FramesSorted speeds) :
    (∀ itv ∈ detect_swings speeds fps minf, GoodInterval minf itv) ∧
    (∀ itv ∈ detect_pitch_motion speeds fps thr minf, GoodInterval minf itv) := by
  constructor
  · intro itv hitv
    simp only [detect_swings] at hitv
    split at hitv
    · simp at hitv
    · split at hitv
      · simp at hitv
      · exact detectIntervals_good _ minf speeds hs itv hitv
  · intro itv hitv
    simp only [detect_pitch_motion] at hitv
    split at hitv
    · simp at hitv
    · exact detectIntervals_good _ minf speeds hs itv hitv

/-- Witness for `detector_intervals_good` at the spec's concrete series. -/
theorem detector_intervals_good_witness :
    FramesSorted [((0:ℤ), (0:ℚ)), (1, 1/10), (2, 9/10), (3, 1), (4, 19/20), (5, 1/10), (6, 0)] ∧
    ((∀ itv ∈ detect_swings
        [((0:ℤ), (0:ℚ)), (1, 1/10), (2, 9/10), (3, 1), (4, 19/20), (5, 1/10), (6, 0)] 30 3,
        GoodInterval 3 itv) ∧
     (∀ itv ∈ detect_pitch_motion
        [((0:ℤ), (0:ℚ)), (1, 1/10), (2, 9/10), (3, 1), (4, 19/20), (5, 1/10), (6, 0)] 30 (6/10) 4,
        GoodInterval 4 itv)) := by
  constructor
  · decide
  · constructor
    · exact (detector_intervals_good _ 30 (6/10) 3 (by decide)).1
    · exact (detector_intervals_good _ 30 (6/10) 4 (by decide)).2

/-- The spec scenario speed series `[(0,0.0),(1,0.1),(2,0.9),(3,1.0),(4,0.95),(5,0.1),(6,0.0)]`. -/
def c2Series : List (ℤ × ℚ) := [(0, 0), (1, 1/10), (2, 9/10), (3, 1), (4, 19/20), (5, 1/10), (6, 0)]

/-- C2 counterexample: with the detection threshold fixed at 0.5 and minimum
duration 2, the scan does NOT return `(2, 4, 3, 1.0)`: the emitted end frame
is the first frame at or below the threshold (frame 5), not the last
above-threshold frame (frame 4). -/
theorem c2_scan_counterexample :
    detectIntervals (fun s => decide (s > 1/2)) 2 c2Series ≠ [⟨2, 4, 3, 1⟩] := by
  norm_num [detectIntervals, scanIntervals, c2Series, List.getLast]

/-- C2 amended: the scan with fixed threshold 0.5 and minimum duration 2
returns exactly one interval, `(2, 5, 3, 1.0)`: the above-threshold run is
frames 2,3,4 with peak at frame 3 (speed 1.0), and the recorded end frame is
frame 5, the first frame back at or below the threshold. -/
theorem c2_scan_result :
    detectIntervals (fun s => decide (s > 1/2)) 2 c2Series = [⟨2, 5, 3, 1⟩] := by
  norm_num [detectIntervals, scanIntervals, c2Series, List.getLast]

/-- The lock-step walk of `align_frames` (comparison.py, lines 34-39):
`while fa < total_a and fb < total_b: append (fa, fb); fa += 1; fb += 1`. -/
def alignGo (total_a total_b : ℤ) (fa fb : ℤ) : List (ℤ × ℤ) :=
  if fa < total_a ∧ fb < total_b then
    (fa, fb) :: alignGo total_a total_b (fa + 1) (fb + 1)
  else []
termination_by (total_a - fa).toNat
decreasing_by omega

/-- `align_frames` (comparison.py, lines 11-40).  `min_start` is computed but
unused, as in the source. -/
def align_frames (total_a total_b : ℤ) (sync_a : ℤ := 0) (sync_b : ℤ := 0) :
    List (ℤ × ℤ) :=
  let offset := sync_b - sync_a
  let _min_start := min sync_a (if offset ≥ 0 then sync_b - offset else sync_a)
  let start_a := if sync_b < sync_a then max 0 (sync_a - sync_b) else 0
  let start_b := if sync_a < sync_b then max 0 (sync_b - sync_a) else 0
  alignGo total_a total_b start_a start_b

lemma alignGo_length (n : ℕ) : ∀ ta tb fa fb : ℤ, (ta - fa).toNat ≤ n →
    ((alignGo ta tb fa fb).length : ℤ) ≤ max 0 (min (ta - fa) (tb - fb)) := by
  induction n with
  | zero =>
      intro ta tb fa fb h
      rw [alignGo]
      have hc : ¬ (fa < ta ∧ fb < tb) := by omega
      simp [hc]
  | succ n ih =>
      intro ta tb fa fb h
      rw [alignGo]
      by_cases hc : fa < ta ∧ fb < tb
      · have := ih ta tb (fa + 1) (fb + 1) (by omega)
        rw [if_pos hc]
        simp only [List.length_cons]
        push_cast
        omega
      · simp [hc]

lemma alignGo_bounds (n : ℕ) : ∀ ta tb fa fb : ℤ, (ta - fa).toNat ≤ n →
    ∀ p ∈ alignGo ta tb fa fb, fa ≤ p.1 ∧ fb ≤ p.2 := by
  induction n with
  | zero =>
      intro ta tb fa fb h p hp
      rw [alignGo] at hp
      have hc : ¬ (fa < ta ∧ fb < tb) := by omega
      simp [hc] at hp
  | succ n ih =>
      intro ta tb fa fb h p hp
      rw [alignGo] at hp
      by_cases hc : fa < ta ∧ fb < tb
      · rw [if_pos hc] at hp
        simp only [List.mem_cons] at hp
        rcases hp with rfl | hp
        · exact ⟨le_refl _, le_refl _⟩
        · have := ih ta tb (fa + 1) (fb + 1) (by omega) p hp
          omega
      · simp [hc] at hp

lemma alignGo_pairwise (n : ℕ) : ∀ ta tb fa fb : ℤ, (ta - fa).toNat ≤ n →
    (alignGo ta tb fa fb).Pairwise (fun p q => p.1 < q.1 ∧ p.2 < q.2) := by
  induction n with
  | zero =>
      intro ta tb fa fb h
      rw [alignGo]
      have hc : ¬ (fa < ta ∧ fb < tb) := by omega
      simp [hc]
  | succ n ih =>
      intro ta tb fa fb h
      rw [alignGo]
      by_cases hc : fa < ta ∧ fb < tb
      · rw [if_pos hc]
        refine List.Pairwise.cons ?_ (ih ta tb (fa + 1) (fb + 1) (by omega))
        intro p hp
        have := alignGo_bounds n ta tb (fa + 1) (fb + 1) (by omega) p hp
        omega
      · simp [hc]

lemma alignGo_mem (n : ℕ) : ∀ ta tb fa fb c : ℤ, (ta - fa).toNat ≤ n →
    0 ≤ c → fa + c < ta → fb + c < tb → (fa + c, fb + c) ∈ alignGo ta tb fa fb := by
  induction n with
  | zero =>
      intro ta tb fa fb c h h0 h1 h2
      omega
  | succ n ih =>
      intro ta tb fa fb c h h0 h1 h2
      rw [alignGo]
      have hc : fa < ta ∧ fb < tb := by omega
      rw [if_pos hc]
      simp only [List.mem_cons]
      by_cases hc0 : c = 0
      · subst hc0
        left
        simp
      · right
        have := ih ta tb (fa + 1) (fb + 1) (c - 1) (by omega) (by omega) (by omega) (by omega)
        have he : (fa + 1 + (c - 1), fb + 1 + (c - 1)) = (fa + c, fb + c) := by
          simp only [Prod.mk.injEq]
          omega
        rwa [he] at this

/-- C7: for anchor frames inside each video's frame range, `align_frames`
produces a mapping of length at most `min(total_a, total_b)`, with both
components strictly increasing along the mapping, and the two anchor frames
paired together in one entry (hence at the same mapping index). -/
theorem align_frames_good (ta tb sa sb : ℤ)
    (ha0 : 0 ≤ sa) (ha1 : sa < ta) (hb0 : 0 ≤ sb) (hb1 : sb < tb) :
    ((align_frames ta tb sa sb).length : ℤ) ≤ min ta tb ∧
    (align_frames ta tb sa sb).Pairwise (fun p q => p.1 < q.1 ∧ p.2 < q.2) ∧
    (sa, sb) ∈ align_frames ta tb sa sb := by
  simp only [align_frames]
  set A : ℤ := if sb < sa then max 0 (sa - sb) else 0 with hA
  set B : ℤ := if sa < sb then max 0 (sb - sa) else 0 with hB
  have hA0 : 0 ≤ A := by rw [hA]; split <;> omega
  have hB0 : 0 ≤ B := by rw [hB]; split <;> omega
  have hAB : sa - A = sb - B ∧ 0 ≤ sa - A ∧ A ≤ sa := by
    rw [hA, hB]
    rcases lt_trichotomy sa sb with h | h | h
    · rw [if_neg (by omega), if_pos h]
      omega
    · rw [if_neg (by omega), if_neg (by omega)]
      omega
    · rw [if_pos h, if_neg (by omega)]
      omega
  refine ⟨?_, ?_, ?_⟩
  · have := alignGo_length (ta - A).toNat ta tb A B (le_refl _)
    omega
  · exact alignGo_pairwise (ta - A).toNat ta tb A B (le_refl _)
  · have := alignGo_mem (ta - A).toNat ta tb A B (sa - A) (le_refl _)
      (by omega) (by omega) (by omega)
    have he : (A + (sa - A), B + (sa - A)) = (sa, sb) := by
      simp only [Prod.mk.injEq]
      omega
    rwa [he] at this

/-- Witness for `align_frames_good` at `total_a = 10`, `total_b = 8`,
`sync_a = 6`, `sync_b = 3`. -/
theorem align_frames_good_witness :
    ((0:ℤ) ≤ 6 ∧ (6:ℤ) < 10 ∧ (0:ℤ) ≤ 3 ∧ (3:ℤ) < 8) ∧
    (((align_frames 10 8 6 3).length : ℤ) ≤ min 10 8 ∧
     (align_frames 10 8 6 3).Pairwise (fun p q => p.1 < q.1 ∧ p.2 < q.2) ∧
     ((6:ℤ), (3:ℤ)) ∈ align_frames 10 8 6 3) :=
  ⟨⟨by decide, by decide, by decide, by decide⟩,
   align_frames_good 10 8 6 3 (by decide) (by decide) (by decide) (by decide)⟩

/-- `calc_angle` (angle_analyzer.py, lines 6-22): angle at vertex `b` between
rays `b→a` and `b→c`, via the dot-product/arccos formula with the cosine
clipped to `[-1, 1]`, converted to degrees; `0.0` when either ray has zero
length (`norm == 0`). -/
noncomputable def calc_angle (a b c : ℝ × ℝ) : ℝ :=
  let bax := a.1 - b.1
  let bay := a.2 - b.2
  let bcx := c.1 - b.1
  let bcy := c.2 - b.2
  let norm := Real.sqrt (bax ^ 2 + bay ^ 2) * Real.sqrt (bcx ^ 2 + bcy ^ 2)
  if norm = 0 then 0
  else Real.arccos (min 1 (max (-1) ((bax * bcx + bay * bcy) / norm))) * 180 / Real.pi

lemma arccos_deg_nonneg (x : ℝ) : 0 ≤ Real.arccos x * 180 / Real.pi :=
  div_nonneg (mul_nonneg (Real.arccos_nonneg _) (by norm_num)) Real.pi_pos.le

lemma arccos_deg_le_180 (x : ℝ) : Real.arccos x * 180 / Real.pi ≤ 180 := by
  rw [div_le_iff₀ Real.pi_pos]
  have h := Real.arccos_le_pi x
  nlinarith [Real.pi_pos]

lemma calc_angle_nonneg (a b c : ℝ × ℝ) : 0 ≤ calc_angle a b c := by
  simp only [calc_angle]
  split
  · exact le_refl 0
  · exact arccos_deg_nonneg _

lemma calc_angle_le_180 (a b c : ℝ × ℝ) : calc_angle a b c ≤ 180 := by
  simp only [calc_angle]
  split
  · norm_num
  · exact arccos_deg_le_180 _

lemma calc_angle_comm (a b c : ℝ × ℝ) : calc_angle a b c = calc_angle c b a := by
  simp only [calc_angle]
  have h1 : (a.1 - b.1) * (c.1 - b.1) + (a.2 - b.2) * (c.2 - b.2)
      = (c.1 - b.1) * (a.1 - b.1) + (c.2 - b.2) * (a.2 - b.2) := by ring
  have h2 : Real.sqrt ((a.1 - b.1) ^ 2 + (a.2 - b.2) ^ 2)
        * Real.sqrt ((c.1 - b.1) ^ 2 + (c.2 - b.2) ^ 2)
      = Real.sqrt ((c.1 - b.1) ^ 2 + (c.2 - b.2) ^ 2)
        * Real.sqrt ((a.1 - b.1) ^ 2 + (a.2 - b.2) ^ 2) := mul_comm _ _
  rw [h1, h2]

lemma calc_angle_degenerate (a b c : ℝ × ℝ) (h : a = b ∨ c = b) :
    calc_angle a b c = 0 := by
  rcases h with h | h <;>
    · subst h
      simp [calc_angle]

lemma calc_angle_right_angle : calc_angle (0, 0) (1, 0) (1, 1) = 90 := by
  simp only [calc_angle]
  norm_num
  field_simp
  ring

/-- The `points` dict of `analyze_frame_angles` (angle_analyzer.py, lines
60-66): joint `i` is present iff its visibility exceeds `0.5`; with an
`image_size = (w, h)`, coordinates are scaled to `(x*w, y*h)` first. -/
def landmarkPoint (lm : Landmarks) (image_size : Option (ℚ × ℚ)) (i : ℕ) :
    Option (ℚ × ℚ) :=
  match image_size with
  | some (w, h) => if (lm i).vis > 1/2 then some ((lm i).x * w, (lm i).y * h) else none
  | none => if (lm i).vis > 1/2 then some ((lm i).x, (lm i).y) else none

/-- Coordinate pair cast into the real plane for the angle formula. -/
def toPointR (p : ℚ × ℚ) : ℝ × ℝ := ((p.1 : ℝ), (p.2 : ℝ))

/-- `analyze_frame_angles` (angle_analyzer.py, lines 46-72): for each named
triple whose three joints are all visible, emit the triple's `calc_angle`;
triples with a missing joint are omitted (no entry). -/
noncomputable def analyze_frame_angles (landmarks : Option Landmarks)
    (angle_defs : List (String × ℕ × ℕ × ℕ))
    (image_size : Option (ℚ × ℚ) := none) : List (String × ℝ) :=
  match landmarks with
  | none => []
  | some lm =>
      angle_defs.filterMap (fun d =>
        match landmarkPoint lm image_size d.2.1, landmarkPoint lm image_size d.2.2.1,
              landmarkPoint lm image_size d.2.2.2 with
        | some pa, some pb, some pc =>
            some (d.1, calc_angle (toPointR pa) (toPointR pb) (toPointR pc))
        | _, _, _ => none)

lemma calc_angle_scale (k ax ay bx byy cx cy : ℝ) (hk : 0 < k) :
    calc_angle (k * ax, k * ay) (k * bx, k * byy) (k * cx, k * cy)
      = calc_angle (ax, ay) (bx, byy) (cx, cy) := by
  have hsq : ∀ u v : ℝ, Real.sqrt ((k * u) ^ 2 + (k * v) ^ 2)
      = k * Real.sqrt (u ^ 2 + v ^ 2) := by
    intro u v
    rw [show (k * u) ^ 2 + (k * v) ^ 2 = k ^ 2 * (u ^ 2 + v ^ 2) by ring,
        Real.sqrt_mul (sq_nonneg k), Real.sqrt_sq hk.le]
  simp only [calc_angle]
  rw [show k * ax - k * bx = k * (ax - bx) by ring,
      show k * ay - k * byy = k * (ay - byy) by ring,
      show k * cx - k * bx = k * (cx - bx) by ring,
      show k * cy - k * byy = k * (cy - byy) by ring, hsq, hsq]
  have hprod : (k * Real.sqrt ((ax - bx) ^ 2 + (ay - byy) ^ 2))
        * (k * Real.sqrt ((cx - bx) ^ 2 + (cy - byy) ^ 2))
      = k ^ 2 * (Real.sqrt ((ax - bx) ^ 2 + (ay - byy) ^ 2)
        * Real.sqrt ((cx - bx) ^ 2 + (cy - byy) ^ 2)) := by ring
  have hk2 : (k : ℝ) ^ 2 ≠ 0 := pow_ne_zero 2 (ne_of_gt hk)
  by_cases h : Real.sqrt ((ax - bx) ^ 2 + (ay - byy) ^ 2)
      * Real.sqrt ((cx - bx) ^ 2 + (cy - byy) ^ 2) = 0
  · rw [if_pos (by rw [hprod, h, mul_zero]), if_pos h]
  · rw [if_neg (by rw [hprod]; exact fun hc => h (by
        rcases mul_eq_zero.mp hc with hc | hc
        · exact absurd hc hk2
        · exact hc)), if_neg h]
    have hcos : (k * (ax - bx) * (k * (cx - bx)) + k * (ay - byy) * (k * (cy - byy)))
          / ((k * Real.sqrt ((ax - bx) ^ 2 + (ay - byy) ^ 2))
            * (k * Real.sqrt ((cx - bx) ^ 2 + (cy - byy) ^ 2)))
        = ((ax - bx) * (cx - bx) + (ay - byy) * (cy - byy))
          / (Real.sqrt ((ax - bx) ^ 2 + (ay - byy) ^ 2)
            * Real.sqrt ((cx - bx) ^ 2 + (cy - byy) ^ 2)) := by
      rw [hprod, show k * (ax - bx) * (k * (cx - bx)) + k * (ay - byy) * (k * (cy - byy))
          = k ^ 2 * ((ax - bx) * (cx - bx) + (ay - byy) * (cy - byy)) by ring]
      exact mul_div_mul_left _ _ hk2
    rw [hcos]

lemma calc_angle_toPointR_scale (k ax ay bx byy cx cy : ℚ) (hk : 0 < k) :
    calc_angle (toPointR (ax * k, ay * k)) (toPointR (bx * k, byy * k))
        (toPointR (cx * k, cy * k))
      = calc_angle (toPointR (ax, ay)) (toPointR (bx, byy)) (toPointR (cx, cy)) := by
  have hk' : (0 : ℝ) < (k : ℝ) := by exact_mod_cast hk
  have e : ∀ u v : ℚ, toPointR (u * k, v * k) = ((k:ℝ) * (u:ℝ), (k:ℝ) * (v:ℝ)) := by
    intro u v
    simp only [toPointR, Prod.mk.injEq]
    constructor <;> push_cast <;> ring
  rw [e, e, e]
  exact calc_angle_scale (k : ℝ) ax ay bx byy cx cy hk'

lemma landmarkPoint_vis_some {lm : Landmarks} {i : ℕ} (w h : ℚ)
    (hv : (lm i).vis > 1/2) :
    landmarkPoint lm (some (w, h)) i = some ((lm i).x * w, (lm i).y * h) := by
  simp only [landmarkPoint]
  rw [if_pos hv]

lemma landmarkPoint_vis_none {lm : Landmarks} {i : ℕ} (hv : (lm i).vis > 1/2) :
    landmarkPoint lm none i = some ((lm i).x, (lm i).y) := by
  simp only [landmarkPoint]
  rw [if_pos hv]

lemma landmarkPoint_invis_some {lm : Landmarks} {i : ℕ} (w h : ℚ)
    (hv : ¬ ((lm i).vis > 1/2)) : landmarkPoint lm (some (w, h)) i = none := by
  simp only [landmarkPoint]
  rw [if_neg hv]

lemma landmarkPoint_invis_none {lm : Landmarks} {i : ℕ}
    (hv : ¬ ((lm i).vis > 1/2)) : landmarkPoint lm none i = none := by
  simp only [landmarkPoint]
  rw [if_neg hv]

lemma analyze_frame_angles_keys (lm : Landmarks) (w h : ℚ)
    (defs : List (String × ℕ × ℕ × ℕ)) :
    (analyze_frame_angles (some lm) defs (some (w, h))).map Prod.fst
      = (analyze_frame_angles (some lm) defs none).map Prod.fst := by
  induction defs with
  | nil => rfl
  | cons d rest ih =>
      obtain ⟨name, ia, ib, ic⟩ := d
      simp only [analyze_frame_angles, List.filterMap_cons] at ih ⊢
      by_cases h1 : (lm ia).vis > 1/2
      · by_cases h2 : (lm ib).vis > 1/2
        · by_cases h3 : (lm ic).vis > 1/2
          · simp [landmarkPoint_vis_some w h h1, landmarkPoint_vis_some w h h2,
              landmarkPoint_vis_some w h h3, landmarkPoint_vis_none h1,
              landmarkPoint_vis_none h2, landmarkPoint_vis_none h3, ih]
          · simp [landmarkPoint_vis_some w h h1, landmarkPoint_vis_some w h h2,
              landmarkPoint_invis_some w h h3, landmarkPoint_vis_none h1,
              landmarkPoint_vis_none h2, landmarkPoint_invis_none h3, ih]
        · simp [landmarkPoint_vis_some w h h1, landmarkPoint_invis_some w h h2,
            landmarkPoint_vis_none h1, landmarkPoint_invis_none h2, ih]
      · simp [landmarkPoint_invis_some w h h1, landmarkPoint_invis_none h1, ih]

lemma analyze_frame_angles_uniform (lm : Landmarks) (k : ℚ) (hk : 0 < k)
    (defs : List (String × ℕ × ℕ × ℕ)) :
    analyze_frame_angles (some lm) defs (some (k, k))
      = analyze_frame_angles (some lm) defs none := by
  induction defs with
  | nil => rfl
  | cons d rest ih =>
      obtain ⟨name, ia, ib, ic⟩ := d
      simp only [analyze_frame_angles, List.filterMap_cons] at ih ⊢
      by_cases h1 : (lm ia).vis > 1/2
      · by_cases h2 : (lm ib).vis > 1/2
        · by_cases h3 : (lm ic).vis > 1/2
          · simp only [landmarkPoint_vis_some k k h1, landmarkPoint_vis_some k k h2,
              landmarkPoint_vis_some k k h3, landmarkPoint_vis_none h1,
              landmarkPoint_vis_none h2, landmarkPoint_vis_none h3, ih]
            rw [calc_angle_toPointR_scale _ _ _ _ _ _ _ hk]
          · simp [landmarkPoint_vis_some k k h1, landmarkPoint_vis_some k k h2,
              landmarkPoint_invis_some k k h3, landmarkPoint_vis_none h1,
              landmarkPoint_vis_none h2, landmarkPoint_invis_none h3, ih]
        · simp [landmarkPoint_vis_some k k h1, landmarkPoint_invis_some k k h2,
            landmarkPoint_vis_none h1, landmarkPoint_invis_none h2, ih]
      · simp [landmarkPoint_invis_some k k h1, landmarkPoint_invis_none h1, ih]

lemma calc_angle_eval (ax ay bx byy cx cy A C : ℝ)
    (hA : (ax - bx) ^ 2 + (ay - byy) ^ 2 = A) (hC : (cx - bx) ^ 2 + (cy - byy) ^ 2 = C)
    (hAC : Real.sqrt A * Real.sqrt C ≠ 0) :
    calc_angle (ax, ay) (bx, byy) (cx, cy)
      = Real.arccos (min 1 (max (-1)
          (((ax - bx) * (cx - bx) + (ay - byy) * (cy - byy))
            / (Real.sqrt A * Real.sqrt C)))) * 180 / Real.pi := by
  simp only [calc_angle]
  rw [hA, hC, if_neg hAC]

lemma calc_angle_diag_ninety : calc_angle ((1:ℝ), 1) (0, 0) (1, -1) = 90 := by
  have hs : Real.sqrt 2 * Real.sqrt 2 = 2 := Real.mul_self_sqrt (by norm_num)
  have hAC : Real.sqrt 2 * Real.sqrt 2 ≠ 0 := by rw [hs]; norm_num
  rw [calc_angle_eval 1 1 0 0 1 (-1) 2 2 (by norm_num) (by norm_num) hAC]
  have hdot : ((1:ℝ) - 0) * (1 - 0) + (1 - 0) * (-1 - 0) = 0 := by norm_num
  rw [hdot, zero_div]
  rw [show max (-1 : ℝ) 0 = 0 from max_eq_right (by norm_num),
      show min (1 : ℝ) 0 = 0 from min_eq_right (by norm_num), Real.arccos_zero]
  field_simp
  ring

lemma calc_angle_nonuniform_ne : calc_angle ((2:ℝ), 1) (0, 0) (2, -1) ≠ 90 := by
  have hs : Real.sqrt 5 * Real.sqrt 5 = 5 := Real.mul_self_sqrt (by norm_num)
  have hAC : Real.sqrt 5 * Real.sqrt 5 ≠ 0 := by rw [hs]; norm_num
  rw [calc_angle_eval 2 1 0 0 2 (-1) 5 5 (by norm_num) (by norm_num) hAC]
  have hdot : ((2:ℝ) - 0) * (2 - 0) + (1 - 0) * (-1 - 0) = 3 := by norm_num
  rw [hdot, hs]
  rw [show max (-1 : ℝ) (3 / 5) = 3 / 5 from max_eq_right (by norm_num),
      show min (1 : ℝ) (3 / 5) = 3 / 5 from min_eq_right (by norm_num)]
  intro heq
  have hpi : Real.arccos (3 / 5) = Real.pi / 2 := by
    have hne := Real.pi_ne_zero
    field_simp at heq
    linarith
  have hc := Real.cos_arccos (by norm_num : (-1:ℝ) ≤ 3/5) (by norm_num : (3:ℝ)/5 ≤ 1)
  rw [hpi, Real.cos_pi_div_two] at hc
  norm_num at hc

/-- Landmark frame for the C9 counterexample: joints 0, 1, 2 fully visible at
`(1,1)`, `(0,0)`, `(1,-1)`. -/
def lmC9 : Landmarks := fun i =>
  if i = 0 then ⟨1, 1, 0, 1⟩
  else if i = 1 then ⟨0, 0, 0, 1⟩
  else if i = 2 then ⟨1, -1, 0, 1⟩
  else ⟨0, 0, 0, 0⟩

/-- A one-triple angle-definition set for the C9 counterexample. -/
def defsC9 : List (String × ℕ × ℕ × ℕ) := [("elbow", 0, 1, 2)]

lemma afa_c9_none :
    analyze_frame_angles (some lmC9) defsC9 none
      = [("elbow", calc_angle ((1:ℝ), 1) (0, 0) (1, -1))] := by
  have h0 : (lmC9 0).vis > 1/2 := by norm_num [lmC9]
  have h1 : (lmC9 1).vis > 1/2 := by norm_num [lmC9]
  have h2 : (lmC9 2).vis > 1/2 := by norm_num [lmC9]
  simp only [analyze_frame_angles, defsC9, List.filterMap_cons, List.filterMap_nil,
    landmarkPoint_vis_none h0, landmarkPoint_vis_none h1, landmarkPoint_vis_none h2]
  norm_num [lmC9, toPointR]

lemma afa_c9_scaled :
    analyze_frame_angles (some lmC9) defsC9 (some (2, 1))
      = [("elbow", calc_angle ((2:ℝ), 1) (0, 0) (2, -1))] := by
  have h0 : (lmC9 0).vis > 1/2 := by norm_num [lmC9]
  have h1 : (lmC9 1).vis > 1/2 := by norm_num [lmC9]
  have h2 : (lmC9 2).vis > 1/2 := by norm_num [lmC9]
  simp only [analyze_frame_angles, defsC9, List.filterMap_cons, List.filterMap_nil,
    landmarkPoint_vis_some 2 1 h0, landmarkPoint_vis_some 2 1 h1, landmarkPoint_vis_some 2 1 h2]
  norm_num [lmC9, toPointR]

/-- C9 counterexample: `analyze_frame_angles` with `image_size = (2, 1)` does
NOT return the same angle values as without `image_size` — the source scales
x by `w` and y by `h`, and non-uniform scaling changes angles (here 90° vs
`arccos(3/5)` in degrees). -/
theorem c9_image_size_counterexample :
    analyze_frame_angles (some lmC9) defsC9 (some (2, 1))
      ≠ analyze_frame_angles (some lmC9) defsC9 none := by
  rw [afa_c9_none, afa_c9_scaled, calc_angle_diag_ninety]
  intro heq
  simp only [List.cons.injEq, Prod.mk.injEq] at heq
  exact calc_angle_nonuniform_ne heq.1.2

/-- C9 amended: `analyze_frame_angles` called with any `image_size` returns a
mapping with the same keys as without `image_size`; the angle values are also
unchanged whenever the scaling is uniform (`w = h > 0`).  (With non-uniform
axis scaling the angle values can change; see the counterexample.) -/
theorem analyze_frame_angles_image_size (landmarks : Option Landmarks)
    (defs : List (String × ℕ × ℕ × ℕ)) (w h k : ℚ) (hk : 0 < k) :
    ((analyze_frame_angles landmarks defs (some (w, h))).map Prod.fst
      = (analyze_frame_angles landmarks defs none).map Prod.fst) ∧
    analyze_frame_angles landmarks defs (some (k, k))
      = analyze_frame_angles landmarks defs none := by
  cases landmarks with
  | none => exact ⟨rfl, rfl⟩
  | some lm =>
      exact ⟨analyze_frame_angles_keys lm w h defs, analyze_frame_angles_uniform lm k hk defs⟩

/-- Witness for `analyze_frame_angles_image_size` at the C9 landmark frame,
`(w, h) = (2, 1)` and uniform factor `k = 3`. -/
theorem analyze_frame_angles_image_size_witness :
    (0 : ℚ) < 3 ∧
    (((analyze_frame_angles (some lmC9) defsC9 (some (2, 1))).map Prod.fst
        = (analyze_frame_angles (some lmC9) defsC9 none).map Prod.fst) ∧
      analyze_frame_angles (some lmC9) defsC9 (some (3, 3))
        = analyze_frame_angles (some lmC9) defsC9 none) :=
  ⟨by norm_num, analyze_frame_angles_image_size (some lmC9) defsC9 2 1 3 (by norm_num)⟩

/-- C6: for non-degenerate rays (`a ≠ b` and `c ≠ b`), `calc_angle` lies in
`[0, 180]` and is symmetric under swapping the two rays; with a zero-length
ray it returns `0.0`; and `calc_angle((0,0),(1,0),(1,1)) = 90` degrees. -/
theorem calc_angle_spec :
    (∀ a b c : ℝ × ℝ, a ≠ b → c ≠ b →
      0 ≤ calc_angle a b c ∧ calc_angle a b c ≤ 180 ∧
        calc_angle a b c = calc_angle c b a) ∧
    (∀ a b c : ℝ × ℝ, a = b ∨ c = b → calc_angle a b c = 0) ∧
    calc_angle (0, 0) (1, 0) (1, 1) = 90 :=
  ⟨fun a b c _ _ =>
      ⟨calc_angle_nonneg a b c, calc_angle_le_180 a b c, calc_angle_comm a b c⟩,
   fun a b c h => calc_angle_degenerate a b c h,
   calc_angle_right_angle⟩

/-- Throwing arm selector (`arm="right"` / `arm="left"` in the source). -/
inductive Arm where
  | right : Arm
  | left : Arm
deriving DecidableEq, Repr

/-- `wrist_idx = 16 if arm == "right" else 15`. -/
def wristIdx (arm : Arm) : ℕ := if arm = .right then 16 else 15

/-- `shoulder_idx = 12 if arm == "right" else 11`. -/
def shoulderIdx (arm : Arm) : ℕ := if arm = .right then 12 else 11

/-- `elbow_idx = 14 if arm == "right" else 13`. -/
def elbowIdx (arm : Arm) : ℕ := if arm = .right then 14 else 13

/-- `hip_idx = 24 if arm == "right" else 23`. -/
def hipIdx (arm : Arm) : ℕ := if arm = .right then 24 else 23

/-- The dict returned by `detect_release_point`; `height_ratio` and
`shoulder_angle` may be `None` inside an otherwise-present result. -/
structure ReleaseInfo where
  frame : ℤ
  position : ℚ × ℚ
  height_ratio : Option ℚ
  forward_distance : ℚ
  elbow_angle : ℝ
  shoulder_angle : Option ℝ

/-- `detect_release_point` (pitching_detector.py, lines 249-326). -/
noncomputable def detect_release_point (landmarks_history : History)
    (pitch : MotionInterval) (fps : ℚ) (arm : Arm) : Option ReleaseInfo :=
  let _ := fps
  let release_frame := pitch.peakFrame
  match landmarks_history release_frame with
  | none => none
  | some lm =>
      let wrist := lm (wristIdx arm)
      let shoulder := lm (shoulderIdx arm)
      let elbow := lm (elbowIdx arm)
      let hip := lm (hipIdx arm)
      let nose := lm 0
      if wrist.vis < 1/2 ∨ shoulder.vis < 1/2 ∨ elbow.vis < 1/2 ∨ nose.vis < 1/2 then
        none
      else
        let elbow_angle := calc_angle (toPointR (shoulder.x, shoulder.y))
          (toPointR (elbow.x, elbow.y)) (toPointR (wrist.x, wrist.y))
        let shoulder_angle := if hip.vis > 1/2 then
            some (calc_angle (toPointR (elbow.x, elbow.y))
              (toPointR (shoulder.x, shoulder.y)) (toPointR (hip.x, hip.y)))
          else none
        let ankle := lm (if arm = .right then 28 else 27)
        let height_ratio :=
          if nose.vis > 1/2 ∧ ankle.vis > 1/2 then
            let body_height := |ankle.y - nose.y|
            if body_height > 1/100 then
              some (|ankle.y - wrist.y| / body_height)
            else none
          else none
        let forward_dist := wrist.x - nose.x
        some ⟨release_frame, (wrist.x, wrist.y), height_ratio, forward_dist,
          elbow_angle, shoulder_angle⟩

/-- C8: the release-point refinement is all-or-nothing over its required
joints: if the frame has no pose, or any of wrist, shoulder, elbow or nose is
below the 0.5 visibility threshold at the release frame, `detect_release_point`
returns nothing at all (never a partial record).  (The hip and ankle only gate
the optional `shoulder_angle` / `height_ratio` attributes.) -/
theorem detect_release_point_all_or_nothing (landmarks_history : History)
    (pitch : MotionInterval) (fps : ℚ) (arm : Arm)
    (hbad : landmarks_history pitch.peakFrame = none ∨
      ∃ lm, landmarks_history pitch.peakFrame = some lm ∧
        ((lm (wristIdx arm)).vis < 1/2 ∨ (lm (shoulderIdx arm)).vis < 1/2 ∨
          (lm (elbowIdx arm)).vis < 1/2 ∨ (lm 0).vis < 1/2)) :
    detect_release_point landmarks_history pitch fps arm = none := by
  rcases hbad with hnone | ⟨lm, hsome, hinv⟩
  · simp only [detect_release_point, hnone]
  · simp only [detect_release_point, hsome]
    rw [if_pos hinv]

/-- Witness for `detect_release_point_all_or_nothing`: a single-frame history
whose wrist has visibility 0.4 at the release frame. -/
theorem detect_release_point_all_or_nothing_witness :
    ((fun _ => some (fun _ => (⟨0, 0, 0, 2/5⟩ : Pt)) : History) (MotionInterval.mk 0 5 3 1).peakFrame
        = none ∨
      ∃ lm, (fun _ => some (fun _ => (⟨0, 0, 0, 2/5⟩ : Pt)) : History) (MotionInterval.mk 0 5 3 1).peakFrame
          = some lm ∧
        ((lm (wristIdx .right)).vis < 1/2 ∨ (lm (shoulderIdx .right)).vis < 1/2 ∨
          (lm (elbowIdx .right)).vis < 1/2 ∨ (lm 0).vis < 1/2)) ∧
    detect_release_point (fun _ => some (fun _ => (⟨0, 0, 0, 2/5⟩ : Pt))) ⟨0, 5, 3, 1⟩ 30 .right
      = none := by
  have hbad : (fun _ => some (fun _ => (⟨0, 0, 0, 2/5⟩ : Pt)) : History) (MotionInterval.mk 0 5 3 1).peakFrame
        = none ∨
      ∃ lm, (fun _ => some (fun _ => (⟨0, 0, 0, 2/5⟩ : Pt)) : History) (MotionInterval.mk 0 5 3 1).peakFrame
          = some lm ∧
        ((lm (wristIdx .right)).vis < 1/2 ∨ (lm (shoulderIdx .right)).vis < 1/2 ∨
          (lm (elbowIdx .right)).vis < 1/2 ∨ (lm 0).vis < 1/2) := by
    right
    refine ⟨_, rfl, ?_⟩
    left
    norm_num
  exact ⟨hbad, detect_release_point_all_or_nothing _ ⟨0, 5, 3, 1⟩ 30 .right hbad⟩

/-- Python `range(a, b)` over `ℤ`. -/
def intRange (a b : ℤ) : List ℤ :=
  (List.range (b - a).toNat).map (fun (i : ℕ) => a + (i : ℤ))

lemma mem_intRange {a b x : ℤ} : x ∈ intRange a b ↔ a ≤ x ∧ x < b := by
  constructor
  · intro hx
    obtain ⟨i, hi, rfl⟩ := List.mem_map.mp hx
    have := List.mem_range.mp hi
    omega
  · intro hx
    refine List.mem_map.mpr ⟨(x - a).toNat, List.mem_range.mpr ?_, ?_⟩ <;> omega

lemma getD_find?_intRange (a b d : ℤ) (p : ℤ → Bool) :
    ((intRange a b).find? p).getD d = d ∨
      (a ≤ ((intRange a b).find? p).getD d ∧ ((intRange a b).find? p).getD d < b) := by
  cases hf : (intRange a b).find? p with
  | none => left; rfl
  | some x =>
      right
      simpa [hf] using mem_intRange.mp (List.mem_of_find?_eq_some hf)

lemma foldl_frame_mem {σ : Type} (proj : σ → ℤ) (step : σ → ℤ → σ)
    (hstep : ∀ s f, proj (step s f) = proj s ∨ proj (step s f) = f) :
    ∀ (l : List ℤ) (init : σ),
      proj (l.foldl step init) = proj init ∨ proj (l.foldl step init) ∈ l := by
  intro l
  induction l with
  | nil => intro init; left; rfl
  | cons x xs ih =>
      intro init
      rcases ih (step init x) with h | h
      · rcases hstep init x with h2 | h2
        · left
          simp only [List.foldl_cons]
          omega
        · right
          simp only [List.foldl_cons]
          rw [h, h2]
          exact List.mem_cons_self _ _
      · right
        simp only [List.foldl_cons]
        exact List.mem_cons_of_mem _ h

lemma mem_iteSingleton {α : Type} {c : Prop} [Decidable c] {a x : α} :
    x ∈ (if c then [a] else []) ↔ c ∧ x = a := by
  split
  · simp [*]
  · simp [*]

/-- Dict lookup `{f: s for f, s in speeds}.get(f, 0)`: the last entry for a
frame wins (later dict insertions override), default `0`. -/
def speedLookup (speeds : List (ℤ × ℚ)) (f : ℤ) : ℚ :=
  (speeds.foldl (fun acc p => if p.1 = f then some p.2 else acc) none).getD 0

/-- `pre_margin = int(fps * 0.5) if fps > 0 else 15` (phase_detector.py, l.39). -/
def battingPreMargin (fps : ℚ) : ℤ := if fps > 0 then ⌊fps * (5/10)⌋ else 15

/-- `post_margin = int(fps * 0.3) if fps > 0 else 10` (phase_detector.py, l.40). -/
def battingPostMargin (fps : ℚ) : ℤ := if fps > 0 then ⌊fps * (3/10)⌋ else 10

/-- `analysis_start = max(0, start - pre_margin)` (phase_detector.py, l.41). -/
def battingAnalysisStart (swing : MotionInterval) (fps : ℚ) : ℤ :=
  max 0 (swing.startFrame - battingPreMargin fps)

/-- `analysis_end = end + post_margin` (phase_detector.py, l.42). -/
def battingAnalysisEnd (swing : MotionInterval) (fps : ℚ) : ℤ :=
  swing.endFrame + battingPostMargin fps

/-- Takeback start (phase_detector.py, lines 51-64): first frame in
`[analysis_start, start)` whose wrist moves horizontally by more than 0.005
between consecutive detected frames; default `analysis_start`. -/
def loadStartB (h : History) (analysis_start start : ℤ) : ℤ :=
  ((intRange analysis_start start).find? (fun f =>
    match h f, h (f + 1) with
    | some lm, some nlm =>
        decide ((lm 16).vis > 1/2) && decide ((nlm 16).vis > 1/2) &&
          decide (|(nlm 16).x - (lm 16).x| > 1/200)
    | _, _ => false)).getD analysis_start

/-- Stride start (phase_detector.py, lines 66-81): initialised to
`max(analysis_start, start - int(fps*0.15))` (`start - 5` when fps unknown),
then overwritten by any frame of `range(load_end, start)` where an ankle rises
by more than 0.01 (the inner `break` leaves the outer loop running, so the
last matching frame wins; with `load_end = start` the range is empty). -/
def strideStartB (h : History) (analysis_start load_end start : ℤ) (fps : ℚ) : ℤ :=
  (intRange load_end start).foldl (fun acc f =>
    match h f, h (f + 1) with
    | some lm, some nlm =>
        if ((lm 27).vis > 1/2 ∧ (nlm 27).vis > 1/2 ∧ (nlm 27).y - (lm 27).y < -(1/100)) ∨
            ((lm 28).vis > 1/2 ∧ (nlm 28).vis > 1/2 ∧ (nlm 28).y - (lm 28).y < -(1/100)) then f
        else acc
    | _, _ => acc)
    (max analysis_start (if fps > 0 then start - ⌊fps * (3/20)⌋ else start - 5))

/-- Swing start (phase_detector.py, lines 83-90): first frame of
`[stride_start, peak)` whose wrist speed exceeds 30% of the peak speed;
default `start`. -/
def swingStartB (speeds : List (ℤ × ℚ)) (stride_start peak : ℤ)
    (peak_speed : ℚ) (start : ℤ) : ℤ :=
  ((intRange stride_start peak).find? (fun f =>
    decide (speedLookup speeds f > peak_speed * (3/10)))).getD start

/-- `detect_batting_phases` (phase_detector.py, lines 24-120). -/
def detect_batting_phases (h : History) (wrist_speeds : List (ℤ × ℚ))
    (swing : MotionInterval) (fps : ℚ) : List (String × ℤ × ℤ) :=
  let start := swing.startFrame
  let peak := swing.peakFrame
  let analysis_start := battingAnalysisStart swing fps
  let analysis_end := battingAnalysisEnd swing fps
  let load_start := loadStartB h analysis_start start
  let load_end := start
  let stride_start := strideStartB h analysis_start load_end start fps
  let swing_start := swingStartB wrist_speeds stride_start peak swing.peakSpeed start
  let impact_frame := peak
  let follow_start := peak + 1
  (if load_start > analysis_start then [("stance", analysis_start, load_start - 1)] else []) ++
  (if stride_start > load_start then [("load", load_start, stride_start - 1)] else []) ++
  (if swing_start > stride_start then [("stride", stride_start, swing_start - 1)] else []) ++
  [("swing", swing_start, impact_frame)] ++
  (if analysis_end > follow_start then [("follow_through", follow_start, analysis_end)] else [])

/-- `lead_knee_idx` (pitching_detector.py, lines 131-138). -/
def leadKneeIdx (arm : Arm) : ℕ := if arm = .right then 25 else 26

/-- `lead_ankle_idx` (pitching_detector.py, lines 131-138). -/
def leadAnkleIdx (arm : Arm) : ℕ := if arm = .right then 27 else 28

/-- `pre_margin = int(fps * 0.8) if fps > 0 else 24` (pitching_detector.py, l.140). -/
def pitchPreMargin (fps : ℚ) : ℤ := if fps > 0 then ⌊fps * (8/10)⌋ else 24

/-- `post_margin = int(fps * 0.4) if fps > 0 else 12` (pitching_detector.py, l.141). -/
def pitchPostMargin (fps : ℚ) : ℤ := if fps > 0 then ⌊fps * (4/10)⌋ else 12

/-- `analysis_start = max(0, start - pre_margin)` (pitching_detector.py, l.142). -/
def pitchAnalysisStart (pitch : MotionInterval) (fps : ℚ) : ℤ :=
  max 0 (pitch.startFrame - pitchPreMargin fps)

/-- `analysis_end = end + post_margin` (pitching_detector.py, l.143). -/
def pitchAnalysisEnd (pitch : MotionInterval) (fps : ℚ) : ℤ :=
  pitch.endFrame + pitchPostMargin fps

/-- Leg-lift peak (pitching_detector.py, lines 146-162): frame of maximum
`hip_y - lead_knee_y` over `[analysis_start, start)`, starting from
`(max_lift, peak) = (0, analysis_start)`. -/
def legLiftPeakP (h : History) (arm : Arm) (analysis_start start : ℤ) : ℤ :=
  ((intRange analysis_start start).foldl (fun st f =>
    match h f with
    | none => st
    | some lm =>
        if (lm (leadKneeIdx arm)).vis > 1/2 ∧ (lm (hipIdx arm)).vis > 1/2 then
          if (lm (hipIdx arm)).y - (lm (leadKneeIdx arm)).y > st.1 then
            ((lm (hipIdx arm)).y - (lm (leadKneeIdx arm)).y, f)
          else st
        else st) ((0 : ℚ), analysis_start)).2

/-- Leg-lift start (pitching_detector.py, lines 164-173): first frame of
`[analysis_start, leg_lift_peak)` where the lead knee starts rising
(`dy < -0.005`); default `analysis_start`. -/
def legLiftStartP (h : History) (arm : Arm) (analysis_start leg_lift_peak : ℤ) : ℤ :=
  ((intRange analysis_start leg_lift_peak).find? (fun f =>
    match h f, h (f + 1) with
    | some lm, some nlm =>
        decide ((lm (leadKneeIdx arm)).vis > 1/2) && decide ((nlm (leadKneeIdx arm)).vis > 1/2) &&
          decide ((nlm (leadKneeIdx arm)).y - (lm (leadKneeIdx arm)).y < -(1/200))
    | _, _ => false)).getD analysis_start

/-- Stride end (pitching_detector.py, lines 175-187): first frame of
`[leg_lift_peak + 1, start)` where the lead ankle is near the ground
(`ankle_y > 0.75`); default `start`. -/
def strideEndP (h : History) (arm : Arm) (leg_lift_peak start : ℤ) : ℤ :=
  ((intRange (leg_lift_peak + 1) start).find? (fun f =>
    match h f with
    | some lm =>
        decide ((lm (leadAnkleIdx arm)).vis > 1/2) && decide ((lm (leadAnkleIdx arm)).y > 3/4)
    | none => false)).getD start

/-- Arm-cocking end (pitching_detector.py, lines 189-202): frame of minimum
wrist height over `[cocking_start, release)`, starting from
`(min_wrist_y, frame) = (1.0, cocking_start)`. -/
def cockingEndP (h : History) (arm : Arm) (cocking_start release : ℤ) : ℤ :=
  ((intRange cocking_start release).foldl (fun st f =>
    match h f with
    | none => st
    | some lm =>
        if (lm (wristIdx arm)).vis > 1/2 then
          if (lm (wristIdx arm)).y < st.1 then ((lm (wristIdx arm)).y, f) else st
        else st) ((1 : ℚ), cocking_start)).2

/-- `detect_pitching_phases` (pitching_detector.py, lines 114-238).  The
source also builds a `speed_map` dict from `arm_speeds` that it never reads;
`arm_speeds` is likewise unused here. -/
def detect_pitching_phases (h : History) (arm_speeds : List (ℤ × ℚ))
    (pitch : MotionInterval) (fps : ℚ) (arm : Arm) : List (String × ℤ × ℤ) :=
  let _speed_map := speedLookup arm_speeds
  let start := pitch.startFrame
  let release := pitch.peakFrame
  let analysis_start := pitchAnalysisStart pitch fps
  let analysis_end := pitchAnalysisEnd pitch fps
  let leg_lift_peak := legLiftPeakP h arm analysis_start start
  let leg_lift_start := legLiftStartP h arm analysis_start leg_lift_peak
  let stride_start := leg_lift_peak + 1
  let stride_end := strideEndP h arm leg_lift_peak start
  let cocking_start := stride_end + 1
  let cocking_end := cockingEndP h arm cocking_start release
  let accel_start := cocking_end + 1
  let accel_end := release
  let follow_start := release + 1
  (if leg_lift_start > analysis_start then [("windup", analysis_start, leg_lift_start - 1)] else []) ++
  (if stride_start > leg_lift_start then [("leg_lift", leg_lift_start, stride_start - 1)] else []) ++
  (if cocking_start > stride_start then [("stride", stride_start, cocking_start - 1)] else []) ++
  (if accel_start > cocking_start then [("arm_cocking", cocking_start, accel_start - 1)] else []) ++
  (if accel_end ≥ accel_start then [("acceleration", accel_start, accel_end)] else []) ++
  (if analysis_end > follow_start then [("follow_through", follow_start, analysis_end)] else [])

/-- Phases listed in ascending start-frame order (non-decreasing). -/
abbrev PhasesOrdered (phases : List (String × ℤ × ℤ)) : Prop :=
  phases.Pairwise (fun p q => p.2.1 ≤ q.2.1)

/-- All phase ranges inside the analysis window `[a, b]`. -/
abbrev PhasesWithin (a b : ℤ) (phases : List (String × ℤ × ℤ)) : Prop :=
  ∀ p ∈ phases, a ≤ p.2.1 ∧ p.2.2 ≤ b

/-- Mutually non-overlapping frame ranges. -/
abbrev PhasesDisjoint (phases : List (String × ℤ × ℤ)) : Prop :=
  phases.Pairwise (fun p q => p.2.2 < q.2.1 ∨ q.2.2 < p.2.1)

lemma pitchPreMargin_nonneg (fps : ℚ) : 0 ≤ pitchPreMargin fps := by
  unfold pitchPreMargin
  split
  · exact Int.floor_nonneg.mpr (by positivity)
  · norm_num

lemma battingPreMargin_nonneg (fps : ℚ) : 0 ≤ battingPreMargin fps := by
  unfold battingPreMargin
  split
  · exact Int.floor_nonneg.mpr (by positivity)
  · norm_num

lemma battingPostMargin_nonneg (fps : ℚ) : 0 ≤ battingPostMargin fps := by
  unfold battingPostMargin
  split
  · exact Int.floor_nonneg.mpr (by positivity)
  · norm_num

lemma getD_find?_intRange_bound2 (a b d lo hi : ℤ) (p : ℤ → Bool)
    (hd : lo ≤ d ∧ d ≤ hi) (hab : lo ≤ a) (hbb : b ≤ hi + 1) :
    lo ≤ ((intRange a b).find? p).getD d ∧ ((intRange a b).find? p).getD d ≤ hi := by
  cases hf : (intRange a b).find? p with
  | none => simpa [hf] using hd
  | some x =>
      have := mem_intRange.mp (List.mem_of_find?_eq_some hf)
      simp only [hf, Option.getD_some]
      omega

lemma foldl_frame_bound {σ : Type} (proj : σ → ℤ) (step : σ → ℤ → σ)
    (hstep : ∀ s f, proj (step s f) = proj s ∨ proj (step s f) = f)
    (init : σ) (a b lo hi : ℤ)
    (hinit : lo ≤ proj init ∧ proj init ≤ hi) (hab : lo ≤ a) (hb : b ≤ hi + 1) :
    lo ≤ proj ((intRange a b).foldl step init) ∧
      proj ((intRange a b).foldl step init) ≤ hi := by
  rcases foldl_frame_mem proj step hstep (intRange a b) init with hh | hh
  · omega
  · have := mem_intRange.mp hh
    omega

lemma legLiftPeakP_bounds (h : History) (arm : Arm) {a s : ℤ} (has : a ≤ s) :
    a ≤ legLiftPeakP h arm a s ∧ legLiftPeakP h arm a s ≤ s := by
  unfold legLiftPeakP
  refine foldl_frame_bound Prod.snd _ ?_ _ a s a s ⟨le_refl a, has⟩ (le_refl a) (by omega)
  intro st f
  rcases hf : h f with _ | lm
  · simp only [hf]
    exact Or.inl (by trivial)
  · simp only [hf]
    split
    · split
      · exact Or.inr (by trivial)
      · exact Or.inl (by trivial)
    · exact Or.inl (by trivial)

lemma cockingEndP_bounds (h : History) (arm : Arm) (cs rel : ℤ) :
    cs ≤ cockingEndP h arm cs rel ∧
      cockingEndP h arm cs rel ≤ max cs (rel - 1) := by
  unfold cockingEndP
  refine foldl_frame_bound Prod.snd _ ?_ _ cs rel cs (max cs (rel - 1))
    ⟨le_refl cs, le_max_left _ _⟩ (le_refl cs) (by omega)
  intro st f
  rcases hf : h f with _ | lm
  · simp only [hf]
    exact Or.inl (by trivial)
  · simp only [hf]
    split
    · split
      · exact Or.inr (by trivial)
      · exact Or.inl (by trivial)
    · exact Or.inl (by trivial)

lemma legLiftStartP_bounds (h : History) (arm : Arm) {a llp : ℤ} (hal : a ≤ llp) :
    a ≤ legLiftStartP h arm a llp ∧ legLiftStartP h arm a llp ≤ llp := by
  unfold legLiftStartP
  exact getD_find?_intRange_bound2 a llp a a llp _ ⟨le_refl a, hal⟩ (le_refl a) (by omega)

lemma strideEndP_bounds (h : History) (arm : Arm) {llp s : ℤ} (hls : llp ≤ s) :
    llp ≤ strideEndP h arm llp s ∧ strideEndP h arm llp s ≤ s := by
  unfold strideEndP
  exact getD_find?_intRange_bound2 (llp + 1) s s llp s _ ⟨hls, le_refl s⟩ (by omega) (by omega)

lemma loadStartB_bounds (h : History) {a s : ℤ} (has : a ≤ s) :
    a ≤ loadStartB h a s ∧ loadStartB h a s ≤ s := by
  unfold loadStartB
  exact getD_find?_intRange_bound2 a s a a s _ ⟨le_refl a, has⟩ (le_refl a) (by omega)

lemma strideStartB_bounds (h : History) {a s : ℤ} (le_ : ℤ) (fps : ℚ) (has : a ≤ s)
    (hrange : a ≤ le_) :
    a ≤ strideStartB h a le_ s fps ∧ strideStartB h a le_ s fps ≤ s := by
  unfold strideStartB
  have h1 : (if fps > 0 then s - ⌊fps * (3/20)⌋ else s - 5) ≤ s := by
    split
    · have : (0:ℤ) ≤ ⌊fps * (3/20)⌋ := Int.floor_nonneg.mpr (by positivity)
      omega
    · omega
  refine foldl_frame_bound id _ ?_ _ le_ s a s ⟨?_, ?_⟩ hrange (by omega)
  · intro acc f
    rcases hf : h f with _ | lm <;> rcases hf2 : h (f + 1) with _ | nlm
    · simp only [hf, hf2]
      exact Or.inl (by trivial)
    · simp only [hf, hf2]
      exact Or.inl (by trivial)
    · simp only [hf, hf2]
      exact Or.inl (by trivial)
    · simp only [hf, hf2]
      split
      · exact Or.inr (by trivial)
      · exact Or.inl (by trivial)
  · simp only [id_eq]
    exact le_max_left _ _
  · simp only [id_eq]
    omega

lemma swingStartB_bounds (speeds : List (ℤ × ℚ)) {ss pk : ℤ} (ps : ℚ) (s : ℤ)
    (hsp : ss ≤ s) (hspk : s ≤ pk) :
    ss ≤ swingStartB speeds ss pk ps s ∧ swingStartB speeds ss pk ps s ≤ pk := by
  unfold swingStartB
  exact getD_find?_intRange_bound2 ss pk s ss pk _ ⟨hsp, hspk⟩ (le_refl ss) (by omega)

lemma pairwise_ite_singleton {α : Type} {R : α → α → Prop} {c : Prop} [Decidable c]
    {x : α} : ((if c then [x] else []) : List α).Pairwise R := by
  split <;> simp

lemma pairwise_ite_append {α : Type} {R : α → α → Prop} {c : Prop} [Decidable c]
    {x : α} {l : List α} (hl : l.Pairwise R) (hx : c → ∀ y ∈ l, R x y) :
    ((if c then [x] else []) ++ l).Pairwise R := by
  split
  · next hc =>
      rw [List.singleton_append]
      exact List.Pairwise.cons (hx hc) hl
  · simpa using hl

lemma detect_pitching_phases_sorted (h : History) (arm_speeds : List (ℤ × ℚ))
    (pitch : MotionInterval) (fps : ℚ) (arm : Arm)
    (h0 : 0 ≤ pitch.startFrame) (h1 : pitch.startFrame ≤ pitch.peakFrame)
    (h2 : pitch.peakFrame ≤ pitch.endFrame) (hpost : 1 ≤ pitchPostMargin fps) :
    PhasesOrdered (detect_pitching_phases h arm_speeds pitch fps arm) ∧
    PhasesWithin (pitchAnalysisStart pitch fps) (pitchAnalysisEnd pitch fps)
      (detect_pitching_phases h arm_speeds pitch fps arm) := by
  have hpre := pitchPreMargin_nonneg fps
  obtain ⟨st, en, rel, ps⟩ := pitch
  simp only [detect_pitching_phases, pitchAnalysisStart, pitchAnalysisEnd] at *
  simp only [List.append_assoc]
  set as := max 0 (st - pitchPreMargin fps) with has
  set ae := en + pitchPostMargin fps with hae
  set llp := legLiftPeakP h arm as st with hllp
  set lls := legLiftStartP h arm as llp with hlls
  set se := strideEndP h arm llp st with hse
  set ce := cockingEndP h arm (se + 1) rel with hce
  have hasb : 0 ≤ as ∧ as ≤ st := by rw [has]; omega
  have hllpb : as ≤ llp ∧ llp ≤ st := by
    have hb := legLiftPeakP_bounds h arm hasb.2
    rw [← hllp] at hb
    exact hb
  have hllsb : as ≤ lls ∧ lls ≤ llp := by
    have hb := legLiftStartP_bounds h arm hllpb.1
    rw [← hlls] at hb
    exact hb
  have hseb : llp ≤ se ∧ se ≤ st := by
    have hb := strideEndP_bounds h arm hllpb.2
    rw [← hse] at hb
    exact hb
  have hceb : se + 1 ≤ ce ∧ ce ≤ max (se + 1) (rel - 1) := by
    have hb := cockingEndP_bounds h arm (se + 1) rel
    rw [← hce] at hb
    exact hb
  constructor
  · refine pairwise_ite_append ?_ ?_
    · refine pairwise_ite_append ?_ ?_
      · refine pairwise_ite_append ?_ ?_
        · refine pairwise_ite_append ?_ ?_
          · refine pairwise_ite_append ?_ ?_
            · exact pairwise_ite_singleton
            · intro hcE y hy
              simp only [mem_iteSingleton] at hy
              obtain ⟨hcF, rfl⟩ := hy
              dsimp only
              omega
          · intro hcD y hy
            simp only [List.mem_append, mem_iteSingleton] at hy
            rcases hy with ⟨hc, rfl⟩ | ⟨hc, rfl⟩ <;> (dsimp only; omega)
        · intro hcC y hy
          simp only [List.mem_append, mem_iteSingleton] at hy
          rcases hy with ⟨hc, rfl⟩ | ⟨hc, rfl⟩ | ⟨hc, rfl⟩ <;> (dsimp only; omega)
      · intro hcB y hy
        simp only [List.mem_append, mem_iteSingleton] at hy
        rcases hy with ⟨hc, rfl⟩ | ⟨hc, rfl⟩ | ⟨hc, rfl⟩ | ⟨hc, rfl⟩ <;> (dsimp only; omega)
    · intro hcA y hy
      simp only [List.mem_append, mem_iteSingleton] at hy
      rcases hy with ⟨hc, rfl⟩ | ⟨hc, rfl⟩ | ⟨hc, rfl⟩ | ⟨hc, rfl⟩ | ⟨hc, rfl⟩ <;>
        (dsimp only; omega)
  · intro p hp
    simp only [List.mem_append, mem_iteSingleton] at hp
    rcases hp with ⟨hc, rfl⟩ | ⟨hc, rfl⟩ | ⟨hc, rfl⟩ | ⟨hc, rfl⟩ | ⟨hc, rfl⟩ | ⟨hc, rfl⟩ <;>
      exact ⟨by dsimp only; omega, by dsimp only; omega⟩

lemma detect_batting_phases_sorted (h : History) (wrist_speeds : List (ℤ × ℚ))
    (swing : MotionInterval) (fps : ℚ)
    (h0 : 0 ≤ swing.startFrame) (h1 : swing.startFrame ≤ swing.peakFrame)
    (h2 : swing.peakFrame ≤ swing.endFrame) :
    PhasesOrdered (detect_batting_phases h wrist_speeds swing fps) ∧
    PhasesWithin (battingAnalysisStart swing fps) (battingAnalysisEnd swing fps)
      (detect_batting_phases h wrist_speeds swing fps) := by
  have hpre := battingPreMargin_nonneg fps
  have hpost := battingPostMargin_nonneg fps
  obtain ⟨st, en, pk, ps⟩ := swing
  simp only [detect_batting_phases, battingAnalysisStart, battingAnalysisEnd] at *
  simp only [List.append_assoc]
  set as := max 0 (st - battingPreMargin fps) with has
  set ae := en + battingPostMargin fps with hae
  set ls := loadStartB h as st with hls
  set ss := strideStartB h as st st fps with hss
  set sw := swingStartB wrist_speeds ss pk ps st with hsw
  have hasb : 0 ≤ as ∧ as ≤ st := by rw [has]; omega
  have hlsb : as ≤ ls ∧ ls ≤ st := by
    have hb := loadStartB_bounds h hasb.2
    rw [← hls] at hb
    exact hb
  have hssb : as ≤ ss ∧ ss ≤ st := by
    have hb := strideStartB_bounds h st fps hasb.2 hasb.2
    rw [← hss] at hb
    exact hb
  have hswb : ss ≤ sw ∧ sw ≤ pk := by
    have hb := swingStartB_bounds wrist_speeds ps st hssb.2 h1
    rw [← hsw] at hb
    exact hb
  constructor
  · refine pairwise_ite_append ?_ ?_
    · refine pairwise_ite_append ?_ ?_
      · refine pairwise_ite_append ?_ ?_
        · rw [List.singleton_append]
          refine List.Pairwise.cons ?_ pairwise_ite_singleton
          intro y hy
          simp only [mem_iteSingleton] at hy
          obtain ⟨hc, rfl⟩ := hy
          dsimp only
          omega
        · intro hcC y hy
          simp only [List.mem_append, List.mem_cons, mem_iteSingleton, List.not_mem_nil,
            or_false] at hy
          rcases hy with rfl | ⟨hc, rfl⟩ <;> (dsimp only; omega)
      · intro hcB y hy
        simp only [List.mem_append, List.mem_cons, mem_iteSingleton, List.not_mem_nil,
          or_false] at hy
        rcases hy with ⟨hc, rfl⟩ | rfl | ⟨hc, rfl⟩ <;> (dsimp only; omega)
    · intro hcA y hy
      simp only [List.mem_append, List.mem_cons, mem_iteSingleton, List.not_mem_nil,
        or_false] at hy
      rcases hy with ⟨hc, rfl⟩ | ⟨hc, rfl⟩ | rfl | ⟨hc, rfl⟩ <;> (dsimp only; omega)
  · intro p hp
    simp only [List.mem_append, List.mem_cons, mem_iteSingleton, List.not_mem_nil,
      or_false] at hp
    rcases hp with ⟨hc, rfl⟩ | ⟨hc, rfl⟩ | ⟨hc, rfl⟩ | rfl | ⟨hc, rfl⟩ <;>
      exact ⟨by dsimp only; omega, by dsimp only; omega⟩

/-- C3 counterexample: on an all-missing landmark history with pitch interval
`(10, 20, 10, _)` (release at the interval start, as happens when the run's
first frame is its speed peak) and `fps = 0`, `detect_pitching_phases` emits
`arm_cocking = [11, 11]` and `follow_through = [11, 32]`, which overlap at
frame 11 — the phases are not mutually non-overlapping. -/
theorem c3_phases_counterexample :
    ¬ PhasesDisjoint (detect_pitching_phases (fun _ => none) [] ⟨10, 20, 10, 1⟩ 0 .right) := by
  decide

/-- C3 amended: for well-formed intervals (`0 ≤ start ≤ peak ≤ end`), the
phase lists of both detectors are ordered by start frame (non-decreasing) and
every phase lies within the analysis window `[analysis_start, analysis_end]`
(for pitching, provided the post margin is at least one frame, i.e. fps ≥ 2.5
or fps ≤ 0); mutual non-overlap does NOT hold in general. -/
theorem phases_ordered_within (h : History) (wrist_speeds arm_speeds : List (ℤ × ℚ))
    (swing pitch : MotionInterval) (fpsB fpsP : ℚ) (arm : Arm)
    (hb0 : 0 ≤ swing.startFrame) (hb1 : swing.startFrame ≤ swing.peakFrame)
    (hb2 : swing.peakFrame ≤ swing.endFrame)
    (hp0 : 0 ≤ pitch.startFrame) (hp1 : pitch.startFrame ≤ pitch.peakFrame)
    (hp2 : pitch.peakFrame ≤ pitch.endFrame) (hpost : 1 ≤ pitchPostMargin fpsP) :
    (PhasesOrdered (detect_batting_phases h wrist_speeds swing fpsB) ∧
     PhasesWithin (battingAnalysisStart swing fpsB) (battingAnalysisEnd swing fpsB)
       (detect_batting_phases h wrist_speeds swing fpsB)) ∧
    (PhasesOrdered (detect_pitching_phases h arm_speeds pitch fpsP arm) ∧
     PhasesWithin (pitchAnalysisStart pitch fpsP) (pitchAnalysisEnd pitch fpsP)
       (detect_pitching_phases h arm_speeds pitch fpsP arm)) :=
  ⟨detect_batting_phases_sorted h wrist_speeds swing fpsB hb0 hb1 hb2,
   detect_pitching_phases_sorted h arm_speeds pitch fpsP arm hp0 hp1 hp2 hpost⟩

/-- Witness for `phases_ordered_within` at concrete inputs (all-missing
history, swing `(10, 20, 15, 1)`, pitch `(10, 20, 10, 1)`, fps `0`). -/
theorem phases_ordered_within_witness :
    ((0:ℤ) ≤ (10:ℤ) ∧ (10:ℤ) ≤ 15 ∧ (15:ℤ) ≤ 20 ∧ (10:ℤ) ≤ 10 ∧ (10:ℤ) ≤ 20 ∧
      1 ≤ pitchPostMargin 0) ∧
    ((PhasesOrdered (detect_batting_phases (fun _ => none) [] ⟨10, 20, 15, 1⟩ 0) ∧
      PhasesWithin (battingAnalysisStart ⟨10, 20, 15, 1⟩ 0) (battingAnalysisEnd ⟨10, 20, 15, 1⟩ 0)
        (detect_batting_phases (fun _ => none) [] ⟨10, 20, 15, 1⟩ 0)) ∧
     (PhasesOrdered (detect_pitching_phases (fun _ => none) [] ⟨10, 20, 10, 1⟩ 0 .right) ∧
      PhasesWithin (pitchAnalysisStart ⟨10, 20, 10, 1⟩ 0) (pitchAnalysisEnd ⟨10, 20, 10, 1⟩ 0)
        (detect_pitching_phases (fun _ => none) [] ⟨10, 20, 10, 1⟩ 0 .right))) := by
  have hpost : (1:ℤ) ≤ pitchPostMargin 0 := by norm_num [pitchPostMargin]
  refine ⟨⟨by norm_num, by norm_num, by norm_num, by norm_num, by norm_num, hpost⟩, ?_⟩
  exact phases_ordered_within (fun _ => none) [] [] ⟨10, 20, 15, 1⟩ ⟨10, 20, 10, 1⟩ 0 0 .right
    (by norm_num) (by norm_num) (by norm_num) (by norm_num) (by norm_num) (by norm_num) hpost

/-- Python `int(max_score * ratio)` for the non-negative scores used by the
evaluators (truncation = floor for non-negative values; all products used by
the source are exactly representable, e.g. `int(20*0.6) = 12`). -/
def intScore (m : ℤ) (r : ℚ) : ℤ := ⌊(m : ℚ) * r⌋

lemma intScore_bounds (m : ℤ) (r : ℚ) (hm : 0 ≤ m) (hr0 : 0 ≤ r) (hr1 : r ≤ 1) :
    0 ≤ intScore m r ∧ intScore m r ≤ m := by
  constructor
  · exact Int.floor_nonneg.mpr (by positivity)
  · calc ⌊(m : ℚ) * r⌋ ≤ ⌊(m : ℚ)⌋ := by
          apply Int.floor_le_floor
          calc (m : ℚ) * r ≤ (m : ℚ) * 1 := by
                apply mul_le_mul_of_nonneg_left hr1
                exact_mod_cast hm
            _ = (m : ℚ) := mul_one _
      _ = m := Int.floor_intCast m

/-- `all(lm[i][3] > 0.5 for i in (a, b, c))`. -/
def visTriple (lm : Landmarks) (a b c : ℕ) : Prop :=
  (lm a).vis > 1/2 ∧ (lm b).vis > 1/2 ∧ (lm c).vis > 1/2

instance (lm : Landmarks) (a b c : ℕ) : Decidable (visTriple lm a b c) := by
  unfold visTriple
  infer_instance

/-- The `calc_angle` call on three joints of one frame, as every evaluator
makes it: `calc_angle((lm[a][0], lm[a][1]), (lm[b][0], lm[b][1]), ...)`. -/
noncomputable def angleOf (lm : Landmarks) (a b c : ℕ) : ℝ :=
  calc_angle (toPointR ((lm a).x, (lm a).y)) (toPointR ((lm b).x, (lm b).y))
    (toPointR ((lm c).x, (lm c).y))

/-- One entry of the evaluators' `details` list (the advice/sub-detail
strings, pure presentation, are not modelled). -/
structure EvalDetail where
  name : String
  score : ℤ
  max : ℤ
  status : String

/-- Knee criterion (batting_evaluator.py, lines 70-90): first of the two knee
triples that is fully visible at the stance frame (`start - 5` when
`start > 5`, else `start`) determines the banded score; `0` without a pose or
visible triple. -/
noncomputable def battingKneeScore (h : History) (start : ℤ) : ℤ :=
  let stance_frame := if start > 5 then start - 5 else start
  match h stance_frame with
  | none => 0
  | some lm =>
      if visTriple lm 24 26 28 then
        let angle := angleOf lm 24 26 28
        if 130 ≤ angle ∧ angle ≤ 155 then 20
        else if |angle - 130| ≤ 20 ∨ |angle - 155| ≤ 20 then intScore 20 (6/10)
        else intScore 20 (3/10)
      else if visTriple lm 23 25 27 then
        let angle := angleOf lm 23 25 27
        if 130 ≤ angle ∧ angle ≤ 155 then 20
        else if |angle - 130| ≤ 20 ∨ |angle - 155| ≤ 20 then intScore 20 (6/10)
        else intScore 20 (3/10)
      else 0

/-- Elbow-extension criterion (batting_evaluator.py, lines 101-121):
`best_angle` is the running maximum (starting at 0) of the visible elbow
angles at the peak frame; without a pose the score is 0, with one it is the
banded score of `best_angle` (which is the low band when nothing is visible,
since `best_angle` stays 0). -/
noncomputable def battingElbowScore (h : History) (peak : ℤ) : ℤ :=
  match h peak with
  | none => 0
  | some lm =>
      let b1 : ℝ := if visTriple lm 12 14 16 then max 0 (angleOf lm 12 14 16) else 0
      let b2 : ℝ := if visTriple lm 11 13 15 then max b1 (angleOf lm 11 13 15) else b1
      if 140 ≤ b2 ∧ b2 ≤ 175 then 20
      else if |b2 - 140| ≤ 20 then intScore 20 (6/10)
      else intScore 20 (3/10)

/-- Step-width criterion (batting_evaluator.py, lines 132-150). -/
def battingStepScore (h : History) (peak : ℤ) : ℤ :=
  match h peak with
  | none => 0
  | some lm =>
      if (lm 27).vis > 1/2 ∧ (lm 28).vis > 1/2 ∧ (lm 11).vis > 1/2 ∧ (lm 12).vis > 1/2 then
        let step_w := |(lm 27).x - (lm 28).x|
        let shoulder_w := |(lm 11).x - (lm 12).x|
        if shoulder_w > 1/100 then
          let ratio := step_w / shoulder_w
          if 1 ≤ ratio ∧ ratio ≤ 16/10 then 15
          else if |ratio - 1| ≤ 3/10 ∨ |ratio - 16/10| ≤ 3/10 then intScore 15 (6/10)
          else intScore 15 (3/10)
        else 0
      else 0

/-- Weight-shift criterion (batting_evaluator.py, lines 161-174): scored only
when `weight_data` is truthy with at least 3 entries, from the shift between
the first and last `(frame, cog_x, ratio)` entries; otherwise 0. -/
def battingWeightScore (weight_data : Option (List (ℤ × ℚ × ℚ))) : ℤ :=
  match weight_data with
  | none => 0
  | some l =>
      if hl : l ≠ [] ∧ 3 ≤ l.length then
        let start_ratio := (l.head hl.1).2.2
        let end_ratio := (l.getLast hl.1).2.2
        let shift := |end_ratio - start_ratio|
        if shift > 3/20 then 20
        else if shift > 2/25 then intScore 20 (6/10)
        else intScore 20 (3/10)
      else 0

/-- Follow-through criterion (batting_evaluator.py, lines 185-203): first
fully visible arm triple at `min(peak + 10, end)` gives the banded score. -/
noncomputable def battingFollowScore (h : History) (peak end_ : ℤ) : ℤ :=
  let follow_frame := min (peak + 10) end_
  match h follow_frame with
  | none => 0
  | some lm =>
      if visTriple lm 12 14 16 then
        let angle := angleOf lm 12 14 16
        if angle > 150 then 15
        else if angle > 120 then intScore 15 (6/10)
        else intScore 15 (3/10)
      else if visTriple lm 11 13 15 then
        let angle := angleOf lm 11 13 15
        if angle > 150 then 15
        else if angle > 120 then intScore 15 (6/10)
        else intScore 15 (3/10)
      else 0

/-- The visible nose positions over `range(start, min(end + 1, peak + 5))`
(batting_evaluator.py, lines 216-220). -/
def nosePositions (h : History) (start end_ peak : ℤ) : List (ℚ × ℚ) :=
  (intRange start (min (end_ + 1) (peak + 5))).filterMap (fun f =>
    match h f with
    | some lm => if (lm 0).vis > 1/2 then some ((lm 0).x, (lm 0).y) else none
    | none => none)

/-- Python `max(xs)` / `min(xs)` on a non-empty list (0 as an unreachable
default for the empty case, which the callers guard against). -/
def listMax (l : List ℚ) : ℚ :=
  match l with
  | [] => 0
  | x :: r => r.foldl max x

/-- See `listMax`. -/
def listMin (l : List ℚ) : ℚ :=
  match l with
  | [] => 0
  | x :: r => r.foldl min x

/-- Head-stability criterion (batting_evaluator.py, lines 214-234): needs at
least 3 visible nose samples; bands on the diagonal extent of the nose
positions. -/
noncomputable def battingHeadScore (h : History) (start end_ peak : ℤ) : ℤ :=
  let ps := nosePositions h start end_ peak
  if 3 ≤ ps.length then
    let xs := ps.map Prod.fst
    let ys := ps.map Prod.snd
    let x_range : ℚ := listMax xs - listMin xs
    let y_range : ℚ := listMax ys - listMin ys
    let head_movement : ℝ := Real.sqrt ((x_range : ℝ) ^ 2 + (y_range : ℝ) ^ 2)
    if head_movement < 5/100 then 10
    else if head_movement < 10/100 then intScore 10 (6/10)
    else intScore 10 (3/10)
  else 0

/-- The result of `evaluate_batting` / `evaluate_pitching` (the free-text
`summary` and warning strings are presentation only and not modelled). -/
structure Evaluation where
  total_score : ℤ
  grade : String
  details : List EvalDetail
  injury_risk : String

/-- `evaluate_batting` (batting_evaluator.py, lines 51-274).  The `details`
list carries each criterion's name, score, max and status; `total` is the sum
of the six scores and the grade is the fixed threshold chain.  (Batting has no
injury risk; the field is unused and set to `""`.) -/
noncomputable def evaluate_batting (h : History) (swing : MotionInterval)
    (weight_data : Option (List (ℤ × ℚ × ℚ)) := none) : Evaluation :=
  let start := swing.startFrame
  let end_ := swing.endFrame
  let peak := swing.peakFrame
  let knee := battingKneeScore h start
  let elbow := battingElbowScore h peak
  let step := battingStepScore h peak
  let weight := battingWeightScore weight_data
  let follow := battingFollowScore h peak end_
  let head := battingHeadScore h start end_ peak
  let details : List EvalDetail := [
    ⟨"膝の使い方", knee, 20, if knee ≥ 15 then "good" else if knee ≥ 10 then "warning" else "bad"⟩,
    ⟨"肘の伸び", elbow, 20, if elbow ≥ 15 then "good" else if elbow ≥ 10 then "warning" else "bad"⟩,
    ⟨"ステップ幅", step, 15, if step ≥ 12 then "good" else if step ≥ 8 then "warning" else "bad"⟩,
    ⟨"体重移動", weight, 20, if weight ≥ 15 then "good" else if weight ≥ 10 then "warning" else "bad"⟩,
    ⟨"振り切り", follow, 15, if follow ≥ 12 then "good" else if follow ≥ 8 then "warning" else "bad"⟩,
    ⟨"頭の安定", head, 10, if head ≥ 8 then "good" else if head ≥ 5 then "warning" else "bad"⟩]
  let total : ℤ := (details.map (·.score)).sum
  let grade := if total ≥ 85 then "S" else if total ≥ 70 then "A"
    else if total ≥ 55 then "B" else if total ≥ 40 then "C" else "D"
  ⟨total, grade, details, ""⟩

/-- `np.degrees(np.arctan2(y, x))` on the non-negative quadrant the source
uses (both arguments are absolute values): `arctan(y/x)` in degrees for
`x ≠ 0`, `90` for `x = 0 < y`, `0` at the origin. -/
noncomputable def atan2deg (y x : ℝ) : ℝ :=
  if x = 0 then (if y = 0 then 0 else 90) else Real.arctan (y / x) * 180 / Real.pi

/-- Running minimum elbow angle over the pitch interval
(pitching_evaluator.py, lines 98-112), starting from 180. -/
noncomputable def elbowMinAngle (h : History) (arm : Arm) (start end_ : ℤ) : ℝ :=
  (intRange start (end_ + 1)).foldl (fun acc f =>
    match h f with
    | none => acc
    | some lm =>
        if visTriple lm (shoulderIdx arm) (elbowIdx arm) (wristIdx arm) then
          if angleOf lm (shoulderIdx arm) (elbowIdx arm) (wristIdx arm) < acc then
            angleOf lm (shoulderIdx arm) (elbowIdx arm) (wristIdx arm)
          else acc
        else acc) 180

/-- `check_elbow_safety` (pitching_evaluator.py, lines 82-144), as the pair
`(score, risk_level)`. -/
noncomputable def check_elbow_safety (h : History) (pitch : MotionInterval)
    (arm : Arm) : ℤ × String :=
  let start := pitch.startFrame
  let end_ := pitch.endFrame
  let release := pitch.peakFrame
  let m := elbowMinAngle h arm start end_
  let risk := if m < 120 then "danger" else if m < 140 then "warning" else "safe"
  let s1 : ℤ := if m < 120 then intScore 25 (2/10)
    else if m < 140 then intScore 25 (6/10) else 25
  let s2 : ℤ :=
    match h release with
    | none => s1
    | some lm =>
        if visTriple lm (shoulderIdx arm) (elbowIdx arm) (wristIdx arm) ∧
            angleOf lm (shoulderIdx arm) (elbowIdx arm) (wristIdx arm) < 150 then
          max 0 (s1 - 5)
        else s1
  (s2, risk)

/-- The release-time elbow-height branch of `check_shoulder_safety`
(pitching_evaluator.py, lines 158-175), as the pair `(score, risk_level)`
after it runs. -/
def shoulderHeightCheck (h : History) (release : ℤ) (arm : Arm) : ℤ × String :=
  match h release with
  | none => (25, "safe")
  | some lm =>
      if (lm (shoulderIdx arm)).vis > 1/2 ∧ (lm (elbowIdx arm)).vis > 1/2 then
        let height_diff := (lm (shoulderIdx arm)).y - (lm (elbowIdx arm)).y
        if height_diff > 2/100 then (25, "safe")
        else if height_diff > -(2/100) then (25, "safe")
        else (intScore 25 (5/10), "warning")
      else (25, "safe")

/-- The per-frame shoulder-abduction test of the scan in
`check_shoulder_safety` (pitching_evaluator.py, lines 178-190). -/
noncomputable def abductionCond (h : History) (arm : Arm) (f : ℤ) : Bool :=
  match h f with
  | none => false
  | some lm =>
      decide (visTriple lm (shoulderIdx arm) (elbowIdx arm) (hipIdx arm)) &&
        decide (angleOf lm (elbowIdx arm) (shoulderIdx arm) (hipIdx arm) > 110)

/-- `check_shoulder_safety` (pitching_evaluator.py, lines 147-199), as the
pair `(score, risk_level)`: the height branch, then the abduction scan over
`[start, release)` which (only when still "safe") rescales the score by 0.6
and flags a warning. -/
noncomputable def check_shoulder_safety (h : History) (pitch : MotionInterval)
    (arm : Arm) : ℤ × String :=
  let start := pitch.startFrame
  let release := pitch.peakFrame
  let s1r1 := shoulderHeightCheck h release arm
  let abductionFound := (intRange start release).any (abductionCond h arm)
  if abductionFound ∧ s1r1.2 = "safe" then (intScore s1r1.1 (6/10), "warning") else s1r1

/-- Python `max(data, key=value)` returning the frame of the first maximal
value (ties keep the earlier entry, as `>` is strict). -/
def listArgmax (l : List (ℤ × ℚ)) : ℤ :=
  match l with
  | [] => 0
  | x :: r => (r.foldl (fun best p => if p.2 > best.2 then p else best) x).1

/-- The hip/shoulder rotation samples of `check_body_usage`
(pitching_evaluator.py, lines 228-242), one `(frame, hip_rot, shoulder_rot)`
triple per frame where all four joints are visible (the source appends to its
two lists together, so their entries always pair up). -/
def rotData (h : History) (start release : ℤ) : List (ℤ × ℚ × ℚ) :=
  (intRange start (release + 1)).filterMap (fun f =>
    match h f with
    | none => none
    | some lm =>
        if (lm 23).vis > 1/2 ∧ (lm 24).vis > 1/2 ∧
            (lm 11).vis > 1/2 ∧ (lm 12).vis > 1/2 then
          some (f, |(lm 24).x - (lm 23).x|, |(lm 12).x - (lm 11).x|)
        else none)

/-- The per-frame early-body-opening test of the first scan in
`check_body_usage` (pitching_evaluator.py, lines 210-225): a visible shoulder
pair before the interval start whose rotation exceeds 25 degrees. -/
noncomputable def bodyOpenCond (h : History) (start : ℤ) (f : ℤ) : Bool :=
  match h f with
  | none => false
  | some lm =>
      decide ((lm 11).vis > 1/2) && decide ((lm 12).vis > 1/2) && decide (f < start) &&
        decide (atan2deg |(((lm 12).y - (lm 11).y : ℚ) : ℝ)|
          |(((lm 12).x - (lm 11).x : ℚ) : ℝ)| > 25)

/-- `check_body_usage` (pitching_evaluator.py, lines 202-260), score only
(its `details` strings are presentation).  The hip and shoulder rotation
lists are always appended together, so they are modelled as one list of
`(frame, hip_rot, shoulder_rot)` triples. -/
noncomputable def check_body_usage (h : History) (pitch : MotionInterval)
    (arm : Arm) : ℤ :=
  let _ := arm
  let start := pitch.startFrame
  let release := pitch.peakFrame
  let s1 : ℤ :=
    if (intRange (start - 5) release).any (bodyOpenCond h start) then
      max 0 (20 - 8)
    else 20
  let rot_data := rotData h start release
  if 3 ≤ rot_data.length then
    let hip_peak_f := listArgmax (rot_data.map (fun t => (t.1, t.2.1)))
    let shoulder_peak_f := listArgmax (rot_data.map (fun t => (t.1, t.2.2)))
    if hip_peak_f ≤ shoulder_peak_f then s1 else max 0 (s1 - 6)
  else s1

/-- `check_stride_length` (pitching_evaluator.py, lines 263-302), score only. -/
def check_stride_length (h : History) (pitch : MotionInterval) (arm : Arm) : ℤ :=
  let _ := arm
  let release := pitch.peakFrame
  match h release with
  | none => 15
  | some lm =>
      if (lm 27).vis > 1/2 ∧ (lm 28).vis > 1/2 ∧ (lm 0).vis > 1/2 then
        let stride_dist := |(lm 27).x - (lm 28).x|
        let ankle_y := max (lm 27).y (lm 28).y
        let body_height := ankle_y - (lm 0).y
        if body_height > 1/10 then
          let ratio := stride_dist / body_height
          if 7/10 ≤ ratio ∧ ratio ≤ 95/100 then 15
          else if ratio < 6/10 then intScore 15 (5/10)
          else if ratio > 1 then intScore 15 (6/10)
          else intScore 15 (8/10)
        else 15
      else 15

/-- Total wrist travel over consecutive sampled positions
(pitching_evaluator.py, lines 325-329). -/
noncomputable def movementSum : List (ℤ × ℚ × ℚ) → ℝ
  | [] => 0
  | [_] => 0
  | p :: q :: rest =>
      Real.sqrt (((q.2.1 - p.2.1 : ℚ) : ℝ) ^ 2 + ((q.2.2 - p.2.2 : ℚ) : ℝ) ^ 2) +
        movementSum (q :: rest)

/-- The sampled visible wrist positions after release
(pitching_evaluator.py, lines 316-321). -/
def wristPositions (h : History) (arm : Arm) (release follow_frames : ℤ) :
    List (ℤ × ℚ × ℚ) :=
  (intRange release (follow_frames + 1)).filterMap (fun f =>
    match h f with
    | none => none
    | some lm =>
        if (lm (wristIdx arm)).vis > 1/2 then
          some (f, (lm (wristIdx arm)).x, (lm (wristIdx arm)).y)
        else none)

/-- `check_follow_through` (pitching_evaluator.py, lines 305-356), score only. -/
noncomputable def check_follow_through (h : History) (pitch : MotionInterval)
    (fps : ℚ) (arm : Arm) : ℤ :=
  let end_ := pitch.endFrame
  let release := pitch.peakFrame
  let follow_frames := min end_
    (if fps > 0 then release + ⌊fps * (3/10)⌋ else release + 10)
  let wrist_positions := wristPositions h arm release follow_frames
  let s1 : ℤ :=
    if 3 ≤ wrist_positions.length then
      if movementSum wrist_positions > 5/100 then 15 else intScore 15 (5/10)
    else 15
  match h follow_frames with
  | none => s1
  | some lm =>
      if (lm 0).vis > 1/2 ∧ (lm (hipIdx arm)).vis > 1/2 then
        if (lm 0).y - (lm (hipIdx arm)).y > 5/100 then s1 else max 0 (s1 - 3)
      else s1

/-- `evaluate_pitching` (pitching_evaluator.py, lines 359-491). -/
noncomputable def evaluate_pitching (h : History) (pitch : MotionInterval)
    (fps : ℚ) (arm : Arm) : Evaluation :=
  let elbow := check_elbow_safety h pitch arm
  let shoulder := check_shoulder_safety h pitch arm
  let body := check_body_usage h pitch arm
  let stride := check_stride_length h pitch arm
  let follow := check_follow_through h pitch fps arm
  let elbow_status := if elbow.2 = "safe" then "good"
    else if elbow.2 = "warning" then "warning" else "bad"
  let shoulder_status := if shoulder.2 = "safe" then "good" else "warning"
  let details : List EvalDetail := [
    ⟨"肘の安全性", elbow.1, 25, elbow_status⟩,
    ⟨"肩の安全性", shoulder.1, 25, shoulder_status⟩,
    ⟨"体の使い方", body, 20, if body ≥ 15 then "good" else "warning"⟩,
    ⟨"ストライド", stride, 15, if stride ≥ 12 then "good" else "warning"⟩,
    ⟨"フォロースルー", follow, 15, if follow ≥ 12 then "good" else "warning"⟩]
  let total : ℤ := (details.map (·.score)).sum
  let grade := if total ≥ 85 then "S" else if total ≥ 70 then "A"
    else if total ≥ 55 then "B" else if total ≥ 40 then "C" else "D"
  let injury_risk := if elbow.2 = "danger" ∨ shoulder.2 = "danger" then "high"
    else if elbow.2 = "warning" ∨ shoulder.2 = "warning" then "medium" else "low"
  ⟨total, grade, details, injury_risk⟩

lemma battingKneeScore_bounds (h : History) (start : ℤ) :
    0 ≤ battingKneeScore h start ∧ battingKneeScore h start ≤ 20 := by
  have h6 := intScore_bounds 20 (6/10) (by norm_num) (by norm_num) (by norm_num)
  have h3 := intScore_bounds 20 (3/10) (by norm_num) (by norm_num) (by norm_num)
  unfold battingKneeScore
  dsimp only
  rcases hh : h (if start > 5 then start - 5 else start) with _ | lm <;> simp only [hh]
  · omega
  · split_ifs <;> omega

lemma battingElbowScore_bounds (h : History) (peak : ℤ) :
    0 ≤ battingElbowScore h peak ∧ battingElbowScore h peak ≤ 20 := by
  have h6 := intScore_bounds 20 (6/10) (by norm_num) (by norm_num) (by norm_num)
  have h3 := intScore_bounds 20 (3/10) (by norm_num) (by norm_num) (by norm_num)
  unfold battingElbowScore
  rcases hh : h peak with _ | lm <;> simp only [hh]
  · omega
  · try dsimp only
    split_ifs <;> omega

lemma battingStepScore_bounds (h : History) (peak : ℤ) :
    0 ≤ battingStepScore h peak ∧ battingStepScore h peak ≤ 15 := by
  have h6 := intScore_bounds 15 (6/10) (by norm_num) (by norm_num) (by norm_num)
  have h3 := intScore_bounds 15 (3/10) (by norm_num) (by norm_num) (by norm_num)
  unfold battingStepScore
  rcases hh : h peak with _ | lm <;> simp only [hh]
  · omega
  · try dsimp only
    split_ifs <;> omega

lemma battingWeightScore_bounds (wd : Option (List (ℤ × ℚ × ℚ))) :
    0 ≤ battingWeightScore wd ∧ battingWeightScore wd ≤ 20 := by
  have h6 := intScore_bounds 20 (6/10) (by norm_num) (by norm_num) (by norm_num)
  have h3 := intScore_bounds 20 (3/10) (by norm_num) (by norm_num) (by norm_num)
  unfold battingWeightScore
  rcases wd with _ | l
  · try dsimp only
    omega
  · try dsimp only
    by_cases hl : l ≠ [] ∧ 3 ≤ l.length
    · rw [dif_pos hl]
      try dsimp only
      split_ifs <;> omega
    · rw [dif_neg hl]
      omega

lemma battingFollowScore_bounds (h : History) (peak end_ : ℤ) :
    0 ≤ battingFollowScore h peak end_ ∧ battingFollowScore h peak end_ ≤ 15 := by
  have h6 := intScore_bounds 15 (6/10) (by norm_num) (by norm_num) (by norm_num)
  have h3 := intScore_bounds 15 (3/10) (by norm_num) (by norm_num) (by norm_num)
  unfold battingFollowScore
  dsimp only
  rcases hh : h (min (peak + 10) end_) with _ | lm <;> simp only [hh]
  · omega
  · split_ifs <;> omega

lemma battingHeadScore_bounds (h : History) (start end_ peak : ℤ) :
    0 ≤ battingHeadScore h start end_ peak ∧ battingHeadScore h start end_ peak ≤ 10 := by
  have h6 := intScore_bounds 10 (6/10) (by norm_num) (by norm_num) (by norm_num)
  have h3 := intScore_bounds 10 (3/10) (by norm_num) (by norm_num) (by norm_num)
  unfold battingHeadScore
  dsimp only
  split_ifs <;> omega

lemma check_elbow_safety_bounds (h : History) (pitch : MotionInterval) (arm : Arm) :
    0 ≤ (check_elbow_safety h pitch arm).1 ∧ (check_elbow_safety h pitch arm).1 ≤ 25 := by
  have h2 := intScore_bounds 25 (2/10) (by norm_num) (by norm_num) (by norm_num)
  have h6 := intScore_bounds 25 (6/10) (by norm_num) (by norm_num) (by norm_num)
  unfold check_elbow_safety
  dsimp only
  rcases hh : h pitch.peakFrame with _ | lm <;> simp only [hh]
  · split_ifs <;> omega
  · split_ifs <;> omega

lemma shoulderHeightCheck_bounds (h : History) (release : ℤ) (arm : Arm) :
    0 ≤ (shoulderHeightCheck h release arm).1 ∧ (shoulderHeightCheck h release arm).1 ≤ 25 := by
  have h5 := intScore_bounds 25 (5/10) (by norm_num) (by norm_num) (by norm_num)
  unfold shoulderHeightCheck
  rcases hh : h release with _ | lm <;> simp only [hh]
  · omega
  · try dsimp only
    split_ifs <;> (try simp) <;> omega

lemma check_shoulder_safety_bounds (h : History) (pitch : MotionInterval) (arm : Arm) :
    0 ≤ (check_shoulder_safety h pitch arm).1 ∧ (check_shoulder_safety h pitch arm).1 ≤ 25 := by
  have hbase := shoulderHeightCheck_bounds h pitch.peakFrame arm
  have hb := intScore_bounds (shoulderHeightCheck h pitch.peakFrame arm).1 (6/10)
    hbase.1 (by norm_num) (by norm_num)
  unfold check_shoulder_safety
  dsimp only
  split_ifs <;> (try simp) <;> omega

lemma check_body_usage_bounds (h : History) (pitch : MotionInterval) (arm : Arm) :
    0 ≤ check_body_usage h pitch arm ∧ check_body_usage h pitch arm ≤ 20 := by
  simp only [check_body_usage]
  split <;> (try split) <;> (try split) <;> omega

lemma check_stride_length_bounds (h : History) (pitch : MotionInterval) (arm : Arm) :
    0 ≤ check_stride_length h pitch arm ∧ check_stride_length h pitch arm ≤ 15 := by
  have h5 := intScore_bounds 15 (5/10) (by norm_num) (by norm_num) (by norm_num)
  have h6 := intScore_bounds 15 (6/10) (by norm_num) (by norm_num) (by norm_num)
  have h8 := intScore_bounds 15 (8/10) (by norm_num) (by norm_num) (by norm_num)
  unfold check_stride_length
  dsimp only
  rcases hh : h pitch.peakFrame with _ | lm <;> simp only [hh]
  · omega
  · split_ifs <;> omega

lemma check_follow_through_bounds (h : History) (pitch : MotionInterval) (fps : ℚ) (arm : Arm) :
    0 ≤ check_follow_through h pitch fps arm ∧ check_follow_through h pitch fps arm ≤ 15 := by
  have h5 := intScore_bounds 15 (5/10) (by norm_num) (by norm_num) (by norm_num)
  unfold check_follow_through
  dsimp only
  rcases hh : h (min pitch.endFrame
      (if fps > 0 then pitch.peakFrame + ⌊fps * (3/10)⌋ else pitch.peakFrame + 10)) with _ | lm <;>
    simp only [hh]
  · split_ifs <;> omega
  · split_ifs <;> omega

/-- C4: in both evaluators every per-criterion detail satisfies
`0 ≤ score ≤ max`, and `total_score` is the sum of the per-criterion scores,
hence at most 100 (the sum of the maxima of either rubric). -/
theorem evaluator_score_invariants (h : History) (swing pitch : MotionInterval)
    (wd : Option (List (ℤ × ℚ × ℚ))) (fps : ℚ) (arm : Arm) :
    ((∀ d ∈ (evaluate_batting h swing wd).details, 0 ≤ d.score ∧ d.score ≤ d.max) ∧
      (evaluate_batting h swing wd).total_score
        = ((evaluate_batting h swing wd).details.map (·.score)).sum ∧
      (evaluate_batting h swing wd).total_score ≤ 100) ∧
    ((∀ d ∈ (evaluate_pitching h pitch fps arm).details, 0 ≤ d.score ∧ d.score ≤ d.max) ∧
      (evaluate_pitching h pitch fps arm).total_score
        = ((evaluate_pitching h pitch fps arm).details.map (·.score)).sum ∧
      (evaluate_pitching h pitch fps arm).total_score ≤ 100) := by
  have hknee := battingKneeScore_bounds h swing.startFrame
  have helb := battingElbowScore_bounds h swing.peakFrame
  have hstep := battingStepScore_bounds h swing.peakFrame
  have hwt := battingWeightScore_bounds wd
  have hfol := battingFollowScore_bounds h swing.peakFrame swing.endFrame
  have hhd := battingHeadScore_bounds h swing.startFrame swing.endFrame swing.peakFrame
  have hpe := check_elbow_safety_bounds h pitch arm
  have hps := check_shoulder_safety_bounds h pitch arm
  have hpb := check_body_usage_bounds h pitch arm
  have hpst := check_stride_length_bounds h pitch arm
  have hpf := check_follow_through_bounds h pitch fps arm
  refine ⟨⟨?_, rfl, ?_⟩, ⟨?_, rfl, ?_⟩⟩
  · intro d hd
    simp only [evaluate_batting, List.mem_cons, List.not_mem_nil, or_false] at hd
    rcases hd with rfl | rfl | rfl | rfl | rfl | rfl <;>
      exact ⟨by dsimp only; omega, by dsimp only; omega⟩
  · simp only [evaluate_batting, List.map_cons, List.map_nil, List.sum_cons, List.sum_nil]
    omega
  · intro d hd
    simp only [evaluate_pitching, List.mem_cons, List.not_mem_nil, or_false] at hd
    rcases hd with rfl | rfl | rfl | rfl | rfl <;>
      exact ⟨by dsimp only; omega, by dsimp only; omega⟩
  · simp only [evaluate_pitching, List.map_cons, List.map_nil, List.sum_cons, List.sum_nil]
    omega

/-- The fixed grade thresholds of §4.5 of the spec. -/
def gradeThresholds (total : ℤ) : String :=
  if total ≥ 85 then "S" else if total ≥ 70 then "A"
  else if total ≥ 55 then "B" else if total ≥ 40 then "C" else "D"

/-- C5: both evaluators derive the grade letter from `total_score` exactly by
the thresholds `≥85 → S, ≥70 → A, ≥55 → B, ≥40 → C, else D`; in particular a
total of 87 grades "S" and a total of 69 grades "B". -/
theorem evaluator_grade_thresholds (h : History) (swing pitch : MotionInterval)
    (wd : Option (List (ℤ × ℚ × ℚ))) (fps : ℚ) (arm : Arm) :
    (evaluate_batting h swing wd).grade
        = gradeThresholds (evaluate_batting h swing wd).total_score ∧
    (evaluate_pitching h pitch fps arm).grade
        = gradeThresholds (evaluate_pitching h pitch fps arm).total_score ∧
    gradeThresholds 87 = "S" ∧ gradeThresholds 69 = "B" :=
  ⟨rfl, rfl, by decide, by decide⟩

/-- C10: when `weight_data` is `None`, empty, or shorter than 3 entries, the
weight-shift criterion of `evaluate_batting` scores 0 — in particular for the
empty list the single-video wiring passes. -/
theorem evaluate_batting_weight_shift_zero (h : History) (swing : MotionInterval)
    (wd : Option (List (ℤ × ℚ × ℚ)))
    (hwd : wd = none ∨ ∃ l, wd = some l ∧ l.length < 3) :
    ∃ d ∈ (evaluate_batting h swing wd).details,
      d.name = "体重移動" ∧ d.max = 20 ∧ d.score = 0 := by
  have hz : battingWeightScore wd = 0 := by
    rcases hwd with rfl | ⟨l, rfl, hlen⟩
    · rfl
    · unfold battingWeightScore
      dsimp only
      rw [dif_neg]
      intro hc
      omega
  refine ⟨⟨"体重移動", battingWeightScore wd, 20,
    if battingWeightScore wd ≥ 15 then "good"
    else if battingWeightScore wd ≥ 10 then "warning" else "bad"⟩, ?_, rfl, rfl, hz⟩
  simp [evaluate_batting]

/-- Witness for `evaluate_batting_weight_shift_zero` at `weight_data = []`
(the value the single-video path stores) on a trivial history. -/
theorem evaluate_batting_weight_shift_zero_witness :
    ((some ([] : List (ℤ × ℚ × ℚ)) = none ∨
        ∃ l, some ([] : List (ℤ × ℚ × ℚ)) = some l ∧ l.length < 3)) ∧
    ∃ d ∈ (evaluate_batting (fun _ => none) ⟨0, 5, 3, 1⟩ (some [])).details,
      d.name = "体重移動" ∧ d.max = 20 ∧ d.score = 0 := by
  have hwd : (some ([] : List (ℤ × ℚ × ℚ)) = none ∨
      ∃ l, some ([] : List (ℤ × ℚ × ℚ)) = some l ∧ l.length < 3) :=
    Or.inr ⟨[], rfl, by decide⟩
  exact ⟨hwd, evaluate_batting_weight_shift_zero (fun _ => none) ⟨0, 5, 3, 1⟩ (some []) hwd⟩
